import Mathlib

/-!
RP2040 bare-metal Morse transmitter: checksum tool, startup code and firmware.

Shallow embedding of the three source files

* `MorseC/boot/crc32.cpp`   (host-side checksum tool),
* `MorseC/src/startup.c`    (vector table and reset handler),
* `MorseC/src/transmitter.c` (GPIO helpers, interrupt handler, `main`),

followed by the theorems about them.  Machine words are natural numbers with
an explicit reduction modulo `2 ^ 32` wherever the C code can overflow.
-/

/-! ## Part 1: `crc32.cpp` -/

namespace CRC

/-- Modelled from the spec: the parameter record of the vendored header
`CRCpp/inc/CRC.h` (not among the sources).  The spec names a 32 bit wide CRC
by its polynomial, initial value, final XOR value and the two reflection
flags. -/
structure Parameters where
  polynomial : Nat
  initialValue : Nat
  finalXOR : Nat
  reflectInput : Bool
  reflectOutput : Bool
  deriving DecidableEq, Repr

/-- Modelled from the spec: `CRC::CRC_32_MPEG2()` of the vendored header
`CRCpp/inc/CRC.h`: polynomial 0x04C11DB7, initial value 0xFFFFFFFF, final XOR
0x00000000, no input reflection, no output reflection. -/
def CRC_32_MPEG2 : Parameters :=
  { polynomial := 0x04C11DB7
    initialValue := 0xFFFFFFFF
    finalXOR := 0x00000000
    reflectInput := false
    reflectOutput := false }

/-- Modelled from the spec: one shift step of a 32 bit CRC register without
reflection (part of `CRC::Calculate` of the vendored `CRCpp/inc/CRC.h`): when
the top bit is set the register is shifted left and the polynomial is XORed
in, otherwise it is only shifted. -/
def shiftBit (polynomial r : Nat) : Nat :=
  if r &&& 0x80000000 ≠ 0 then ((r <<< 1) % 4294967296) ^^^ polynomial
  else (r <<< 1) % 4294967296

/-- Modelled from the spec: feeding one byte into the 32 bit register without
input reflection (part of `CRC::Calculate` of the vendored `CRCpp/inc/CRC.h`):
the byte is XORed into the top eight bits, then eight shift steps follow. -/
def updateByte (polynomial r b : Nat) : Nat :=
  (shiftBit polynomial)^[8] ((r ^^^ ((b % 256) <<< 24)) % 4294967296)

/-- Modelled from the spec: `CRC::Calculate(data, size, parameters)` of the
vendored `CRCpp/inc/CRC.h` for a 32 bit CRC without reflection: start from the
initial value, feed the first `size` bytes most significant bit first, apply
the final XOR.  The two reflection flags are carried in the record only; the
spec describes no reflected CRC and `CRC_32_MPEG2` sets neither flag. -/
def Calculate (data : List Nat) (size : Nat) (p : Parameters) : Nat :=
  (((data.take size).foldl (updateByte p.polynomial) (p.initialValue % 4294967296))
    ^^^ p.finalXOR) % 4294967296

end CRC

namespace Crc32

/-- Byte order of the machine the tool runs on: it decides how the cast
`*reinterpret_cast<uint32_t*>(crc) = ...` lays the four bytes out. -/
inductive Endian where
  | little
  | big
  deriving DecidableEq, Repr

/-- The value of `std::string::npos` (the largest `size_t`). -/
def npos : Nat := 18446744073709551615

/-- The call `s.substr(pos, count)` for `pos ≤ s.length()`. -/
def substr (s : List Char) (pos count : Nat) : List Char :=
  (s.drop pos).take count

/-- Scan for `find_last_of`: `i` is the index of the head of the remaining
text and `acc` the last match seen so far. -/
def findLastAux (chars : List Char) : List Char → Nat → Nat → Nat
  | [], _, acc => acc
  | c :: rest, i, acc => findLastAux chars rest (i + 1) (if c ∈ chars then i else acc)

/-- The call `s.find_last_of(chars)`: the index of the last character of `s`
that occurs in `chars`, or `npos` when there is none. -/
def find_last_of (s chars : List Char) : Nat :=
  findLastAux chars s 0 npos

/-- The operations the tool performs on files, in program order. -/
inductive FileOp where
  | openInput (path : List Char) (ok : Bool)
  | closeInput
  | openOutput (path : List Char) (ok : Bool)
  | writeOutput (text : List Char)
  | closeOutput
  deriving DecidableEq, Repr

/-- What one run of the tool leaves behind: exit status, the text printed on
standard output, and the file operations in program order. -/
structure Outcome where
  exit : Nat
  stdout : List Char
  ops : List FileOp
  deriving DecidableEq, Repr

/-- The host the tool runs on: its byte order, the files that can be opened
for reading (with their contents, one number per byte) and the paths at which
an output file can be created. -/
structure Host where
  endian : Endian
  file : List Char → Option (List Nat)
  canCreate : List Char → Bool

/-- The call `binFile.read(buffer, count)` on a freshly opened file: the first
`count` bytes of the file overwrite the start of the buffer, the rest of the
buffer is left as it was. -/
def read (content buffer : List Nat) (count : Nat) : List Nat :=
  content.take count ++ buffer.drop (min count content.length)

/-- The store `*reinterpret_cast<uint32_t*>(crc) = v` into the four byte array
`crc`, in the byte order of the host. -/
def storeU32 (e : Endian) (v : Nat) : List Nat :=
  match e with
  | Endian.little => [v % 256, (v / 256) % 256, (v / 65536) % 256, (v / 16777216) % 256]
  | Endian.big => [(v / 16777216) % 256, (v / 65536) % 256, (v / 256) % 256, v % 256]

/-- The number a byte sequence stands for when its least significant byte
comes first. -/
def leValue : List Nat → Nat
  | [] => 0
  | b :: rest => b + 256 * leValue rest

/-- The buffer `binFileData` after the file has been read into it. -/
def binFileData (content : List Nat) : List Nat :=
  read content (List.replicate 252 0) 252

/-- The array `crc` after the checksum has been stored into it. -/
def crcArray (e : Endian) (content : List Nat) : List Nat :=
  storeU32 e (CRC.Calculate (binFileData content) 252 CRC.CRC_32_MPEG2)

/-- The stream output `std::hex << std::setw(2) << std::setfill('0') << n`:
lower-case hexadecimal digits, padded on the left with `0` to two
characters. -/
def hex2 (n : Nat) : List Char :=
  let digits := Nat.toDigits 16 n
  List.replicate (2 - digits.length) '0' ++ digits

/-- The text written to `crc.c` for the array `crc`. -/
def crcText (crc : List Nat) : List Char :=
  "__attribute__((section(\".crc\"))) unsigned char crc[4] = \x7b".toList
    ++ ((List.range 3).map (fun i => "0x".toList ++ hex2 (crc.getD i 0) ++ ", ".toList)).flatten
    ++ "0x".toList ++ hex2 (crc.getD 3 0) ++ "\x7d;".toList

/-- The lower-case hexadecimal digit for a value below sixteen. -/
def lowerHexDigit (n : Nat) : Char :=
  "0123456789abcdef".toList.getD n '0'

/-- The text of `crc.c` that the spec asks for, as a function of the 32 bit
checksum `c`: the declaration of a four byte array placed in section `.crc`
whose entries are the bytes of `c` from the least significant to the most
significant, each written as `0x` and two lower-case hexadecimal digits (the
high nibble first).  It is stated on the nibbles of `c` and uses neither
`storeU32` nor `hex2` nor `crcText`. -/
def littleEndianText (c : Nat) : List Char :=
  "__attribute__((section(\".crc\"))) unsigned char crc[4] = \x7b".toList
    ++ "0x".toList ++ [lowerHexDigit (c / 16 % 16), lowerHexDigit (c % 16)]
    ++ ", ".toList
    ++ "0x".toList ++ [lowerHexDigit (c / 4096 % 16), lowerHexDigit (c / 256 % 16)]
    ++ ", ".toList
    ++ "0x".toList ++ [lowerHexDigit (c / 1048576 % 16), lowerHexDigit (c / 65536 % 16)]
    ++ ", ".toList
    ++ "0x".toList ++ [lowerHexDigit (c / 268435456 % 16), lowerHexDigit (c / 16777216 % 16)]
    ++ "\x7d;".toList

/-- The extension test of `main`: true when the tool bails out. -/
def badExtension (binFilePath : List Char) : Bool :=
  decide (binFilePath.length < 4)
    || substr binFilePath (binFilePath.length - 4) npos != ".bin".toList

/-- The output path computed by `main`. -/
def outFilePath (binFilePath : List Char) : List Char :=
  let dirPath := substr binFilePath 0 (find_last_of binFilePath "/\\".toList)
  dirPath ++ "/crc.c".toList

/-- The file operations that touch the output file. -/
def FileOp.isOutput : FileOp → Bool
  | FileOp.openOutput _ _ => true
  | FileOp.writeOutput _ => true
  | FileOp.closeOutput => true
  | _ => false

/-- The function `main` of `crc32.cpp`; `argv` holds the program name followed
by the arguments, so `argc` is its length. -/
def main (host : Host) (argv : List (List Char)) : Outcome :=
  if argv.length < 2 then
    { exit := 1
      stdout := "An input file with .bin extension must be provided. Exiting ...\n".toList
      ops := [] }
  else
    let binFilePath := argv.getD 1 []
    if badExtension binFilePath then
      { exit := 1
        stdout := "The input file must have .bin extension. Exiting ...\n".toList
        ops := [] }
    else
      match host.file binFilePath with
      | none =>
        { exit := 1
          stdout := "Could not locate file: ".toList ++ binFilePath ++ ". Exiting ...\n".toList
          ops := [FileOp.openInput binFilePath false] }
      | some content =>
        let binFileSize := content.length
        if binFileSize > 252 then
          { exit := 1
            stdout := "The input must be 252 Bytes in size at max. Exiting ...\n".toList
            ops := [FileOp.openInput binFilePath true, FileOp.closeInput] }
        else
          let crc := crcArray host.endian content
          let out := outFilePath binFilePath
          if !host.canCreate out then
            { exit := 1
              stdout := "Failed to create output file: ".toList ++ out ++ "\n".toList
              ops := [FileOp.openInput binFilePath true, FileOp.closeInput,
                      FileOp.openOutput out false] }
          else
            { exit := 0
              stdout := "Generated CRC file: ".toList ++ out ++ "\n".toList
              ops := [FileOp.openInput binFilePath true, FileOp.closeInput,
                      FileOp.openOutput out true, FileOp.writeOutput (crcText crc),
                      FileOp.closeOutput] }

/-- Scenario S1 of the spec: a little-endian host whose current directory
holds the empty file `a.bin`.  Output files can be created in the current
directory only; nothing can be created below `a.bin`, which is a regular file
and not a directory. -/
def scenarioS1 : Host :=
  { endian := Endian.little
    file := fun p => if p = "a.bin".toList ∨ p = "./a.bin".toList then some [] else none
    canCreate := fun p => decide (p = "crc.c".toList ∨ p = "./crc.c".toList) }

/-- A build tree: a little-endian host on which `build/boot.bin` holds the
three bytes 1, 2, 3 and files can be created in `build`. -/
def scenarioBuild : Host :=
  { endian := Endian.little
    file := fun p => if p = "build/boot.bin".toList then some [1, 2, 3] else none
    canCreate := fun p => decide (p = "build/crc.c".toList) }

/-- Scenario S3 of the spec: a little-endian host whose current directory
holds a file `big.bin` of 253 zero bytes; output files can be created
anywhere. -/
def scenarioS3 : Host :=
  { endian := Endian.little
    file := fun p => if p = "./big.bin".toList then some (List.replicate 253 0) else none
    canCreate := fun _ => true }

end Crc32


/-! ## Part 2: `startup.c` -/

namespace Startup

/-- The symbols `startup.c` takes the address of in the vector table. -/
inductive Symbol where
  | _sstack
  | resetHandler
  | defaultHandler
  | nmiHandler
  | hardFaultHandler
  | svCallHandler
  | pendSvHandler
  | sysTickHandler
  | ioIrqBank0
  deriving DecidableEq, Repr

/-- One word of the vector table: the constant `0` or the address of a
symbol. -/
inductive Entry where
  | null
  | addr (s : Symbol)
  deriving DecidableEq, Repr

/-- The declarations `void h () __attribute__((weak, alias("defaultHandler")))`:
the symbol each weak handler is an alias of. -/
def weakAlias : Symbol → Option Symbol
  | Symbol.nmiHandler => some Symbol.defaultHandler
  | Symbol.hardFaultHandler => some Symbol.defaultHandler
  | Symbol.svCallHandler => some Symbol.defaultHandler
  | Symbol.pendSvHandler => some Symbol.defaultHandler
  | Symbol.sysTickHandler => some Symbol.defaultHandler
  | Symbol.ioIrqBank0 => some Symbol.defaultHandler
  | _ => none

/-- The code a symbol stands for once the image is linked: a weak alias gives
way to a definition of the same name in another object file (`strong`), and
stands for its target otherwise. -/
def resolve (strong : Symbol → Bool) (s : Symbol) : Symbol :=
  match weakAlias s with
  | some target => if strong s then s else target
  | none => s

/-- The array `vector` of `startup.c`, in source order. -/
def vector : List Entry :=
  [ Entry.addr Symbol._sstack,
    Entry.addr Symbol.resetHandler,
    Entry.addr Symbol.nmiHandler,
    Entry.addr Symbol.hardFaultHandler,
    Entry.null,
    Entry.null,
    Entry.null,
    Entry.null,
    Entry.null,
    Entry.null,
    Entry.null,
    Entry.addr Symbol.svCallHandler,
    Entry.null,
    Entry.null,
    Entry.addr Symbol.pendSvHandler,
    Entry.addr Symbol.sysTickHandler,
    Entry.null, Entry.null, Entry.null, Entry.null, Entry.null, Entry.null, Entry.null,
    Entry.null, Entry.null, Entry.null, Entry.null, Entry.null, Entry.null,
    Entry.addr Symbol.ioIrqBank0 ]

/-- The linker symbols `resetHandler` reads.  Each is the address of a
`uint32_t`, counted here in words (byte address divided by four). -/
structure Symbols where
  _etext : Nat
  _sdata : Nat
  _edata : Nat
  _sbss : Nat
  _ebss : Nat
  deriving DecidableEq, Repr

/-- Word-addressed memory: the 32 bit word stored at each word address. -/
abbrev Memory := Nat → Nat

/-- The store `*p = v`. -/
def Memory.write (mem : Memory) (p v : Nat) : Memory :=
  fun a => if a = p then v else mem a

/-- The first loop of `resetHandler`, `while (dst < &_edata) *dst++ = *src++;`.
Every iteration uses one unit of fuel, and so does the final test of the
condition; `none` means the fuel ran out before the loop was left. -/
def copyLoop (edata : Nat) : Nat → Nat → Nat → Memory → Option (Nat × Nat × Memory)
  | 0, _, _, _ => none
  | fuel + 1, src, dst, mem =>
    if dst < edata then copyLoop edata fuel (src + 1) (dst + 1) (mem.write dst (mem src))
    else some (src, dst, mem)

/-- The second loop of `resetHandler`, `while (dst < &_ebss) *dst++ = 0;`, with
fuel as in `copyLoop`. -/
def zeroLoop (ebss : Nat) : Nat → Nat → Memory → Option (Nat × Memory)
  | 0, _, _ => none
  | fuel + 1, dst, mem =>
    if dst < ebss then zeroLoop ebss fuel (dst + 1) (mem.write dst 0)
    else some (dst, mem)

/-- The function `resetHandler` up to and including its call of `main`: the
result is what `main` is applied to, the memory left by the two loops.  After
the call the handler spins in `while(true);` and never returns. -/
def resetHandler {α : Type} (sy : Symbols) (main : Memory → α) (fuel : Nat) (mem : Memory) :
    Option α :=
  match copyLoop sy._edata fuel sy._etext sy._sdata mem with
  | none => none
  | some (_, _, mem1) =>
    match zeroLoop sy._ebss fuel sy._sbss mem1 with
    | none => none
    | some (_, mem2) => some (main mem2)

/-- The placement of the linker symbols that the reset handler relies on: both
RAM regions are well formed, and no word belongs to two of the flash source of
the copy (as many words from `_etext` on as the data region has), the data
region and the BSS region. -/
structure Placement (sy : Symbols) : Prop where
  data_le : sy._sdata ≤ sy._edata
  bss_le : sy._sbss ≤ sy._ebss
  src_data : ∀ a, ¬ ((sy._etext ≤ a ∧ a < sy._etext + (sy._edata - sy._sdata))
    ∧ (sy._sdata ≤ a ∧ a < sy._edata))
  src_bss : ∀ a, ¬ ((sy._etext ≤ a ∧ a < sy._etext + (sy._edata - sy._sdata))
    ∧ (sy._sbss ≤ a ∧ a < sy._ebss))
  data_bss : ∀ a, ¬ ((sy._sdata ≤ a ∧ a < sy._edata) ∧ (sy._sbss ≤ a ∧ a < sy._ebss))

end Startup

/-! ## Part 3: `transmitter.c` -/

namespace Transmitter

def SIO_BASE : Nat := 0xd0000000
def IO_BANK0_BASE : Nat := 0x40014000
def PADS_BANK0_BASE : Nat := 0x4001c000
def RESETS_BASE : Nat := 0x4000c000

def BUTTON_PIN : Nat := 16
def SPEAKER_PIN : Nat := 21
def LED_PIN : Nat := 25
def GPIO_FUNC_SIO : Nat := 5

def GPIO_INT_EDGE_HIGH : Nat := 0x8
def IO_BANK0_IRQ : Nat := 13
def NVIC_BASE : Nat := 0xe000e000

/-- The address `NVIC_BASE + 0x100` of the interrupt set-enable register. -/
def NVIC_ISER : Nat := NVIC_BASE + 0x100

/-- Address of `sio->gpio_out_set` (sixth word of `sio_hw_t`). -/
def sio_gpio_out_set : Nat := SIO_BASE + 4 * 5

/-- Address of `sio->gpio_out_clr` (seventh word of `sio_hw_t`). -/
def sio_gpio_out_clr : Nat := SIO_BASE + 4 * 6

/-- Address of `sio->gpio_oe_set` (tenth word of `sio_hw_t`). -/
def sio_gpio_oe_set : Nat := SIO_BASE + 4 * 9

/-- Address of `sio->gpio_oe_clr` (eleventh word of `sio_hw_t`). -/
def sio_gpio_oe_clr : Nat := SIO_BASE + 4 * 10

/-- Address of `io->gpio[pin].ctrl`: each pin has a status and a control
word. -/
def io_gpio_ctrl (pin : Nat) : Nat := IO_BANK0_BASE + 8 * pin + 4

/-- Address of `io->intr[n]`; the array follows the thirty pin records. -/
def io_intr (n : Nat) : Nat := IO_BANK0_BASE + 8 * 30 + 4 * n

/-- Address of `io->proc0_inte[n]`. -/
def io_proc0_inte (n : Nat) : Nat := IO_BANK0_BASE + 8 * 30 + 4 * 4 + 4 * n

/-- Address of `io->proc0_ints[n]`. -/
def io_proc0_ints (n : Nat) : Nat := IO_BANK0_BASE + 8 * 30 + 4 * 12 + 4 * n

/-- Address of `pads->gpio[pin]`; the array follows `voltage_select`. -/
def pads_gpio (pin : Nat) : Nat := PADS_BANK0_BASE + 4 + 4 * pin

/-- Address held by the pointer `resets_reset` of `main`. -/
def resets_reset : Nat := RESETS_BASE + 0x0

/-- What the processor does that can be seen from outside: volatile loads and
stores of registers, `nop` and `wfi` instructions. -/
inductive Event where
  | read (addr val : Nat)
  | write (addr val : Nat)
  | nop
  | wfi
  deriving DecidableEq, Repr

/-- The hardware as the program sees it: the 32 bit word a volatile load of an
address returns, which may depend on how many loads came before. -/
abbrev Bus := Nat → Nat → Nat

/-- The state threaded through the program: the number of volatile loads done
so far and the log of events, the most recent one first. -/
structure Cpu where
  loads : Nat
  log : List Event
  deriving DecidableEq, Repr

/-- The events of a run in program order. -/
def Cpu.trace (s : Cpu) : List Event :=
  s.log.reverse

/-- One more event. -/
def Cpu.emit (e : Event) (s : Cpu) : Cpu :=
  { s with log := e :: s.log }

/-- A volatile load `*addr`. -/
def load (bus : Bus) (addr : Nat) (s : Cpu) : Nat × Cpu :=
  let v := bus addr s.loads % 4294967296
  (v, { loads := s.loads + 1, log := Event.read addr v :: s.log })

/-- A volatile store `*addr = val`. -/
def store (addr val : Nat) (s : Cpu) : Cpu :=
  s.emit (Event.write addr val)

/-- The loop of `delay`: `i` counts up from zero in a 32 bit variable and one
`nop` is executed per round.  The fuel is only a bound on the rounds. -/
def delayLoop (count : Nat) : Nat → Nat → Cpu → Cpu
  | 0, _, s => s
  | fuel + 1, i, s =>
    if i < count then
      delayLoop count fuel ((i + 1) % 4294967296) (s.emit Event.nop)
    else s

/-- The function `delay(count)`; `count` rounds are enough fuel, since `i`
goes up by one each round. -/
def delay (count : Nat) (s : Cpu) : Cpu :=
  delayLoop count count 0 s

def gpio_set_function (pin function : Nat) (s : Cpu) : Cpu :=
  store (io_gpio_ctrl pin) function s

def gpio_set_dir (pin : Nat) (out : Bool) (s : Cpu) : Cpu :=
  if out then store sio_gpio_oe_set ((1 <<< pin) % 4294967296) s
  else store sio_gpio_oe_clr ((1 <<< pin) % 4294967296) s

def gpio_set_pulls (pin : Nat) (up down : Bool) (s : Cpu) : Cpu :=
  store (pads_gpio pin)
    ((if up then 1 <<< 3 else 0) ||| (if down then 1 <<< 2 else 0) ||| (1 <<< 6)) s

def gpio_put (pin : Nat) (value : Bool) (s : Cpu) : Cpu :=
  if value then store sio_gpio_out_set ((1 <<< pin) % 4294967296) s
  else store sio_gpio_out_clr ((1 <<< pin) % 4294967296) s

/-- The interrupt handler `ioIrqBank0`. -/
def ioIrqBank0 (bus : Bus) (s : Cpu) : Cpu :=
  let (ints, s) := load bus (io_proc0_ints (BUTTON_PIN / 8)) s
  if ints &&& (GPIO_INT_EDGE_HIGH <<< (4 * (BUTTON_PIN % 8))) ≠ 0 then
    let s := gpio_put LED_PIN true s
    let s := gpio_put SPEAKER_PIN true s
    let s := delay 100000 s
    let s := gpio_put LED_PIN false s
    let s := gpio_put SPEAKER_PIN false s
    store (io_intr (BUTTON_PIN / 8)) (0xF <<< (4 * (BUTTON_PIN % 8))) s
  else s

/-- The loop `while ((*resets_reset & (1U << 5)) != 0) {}` of `main`: one load
per round; `none` when the fuel runs out before the bit reads as zero. -/
def pollReset (bus : Bus) : Nat → Cpu → Option Cpu
  | 0, _ => none
  | fuel + 1, s =>
    let (v, s) := load bus resets_reset s
    if v &&& (1 <<< 5) ≠ 0 then pollReset bus fuel s else some s

/-- Lines 112 to 128 of `main`: take IO Bank 0 out of reset, then configure
the button, LED and speaker pins. -/
def configure (bus : Bus) (fuel : Nat) (s : Cpu) : Option Cpu :=
  let (r, s) := load bus resets_reset s
  let s := store resets_reset (r &&& (4294967295 ^^^ (1 <<< 5))) s
  match pollReset bus fuel s with
  | none => none
  | some s =>
    let s := gpio_set_function BUTTON_PIN GPIO_FUNC_SIO s
    let s := gpio_set_dir BUTTON_PIN false s
    let s := gpio_set_pulls BUTTON_PIN true false s
    let s := gpio_set_function LED_PIN GPIO_FUNC_SIO s
    let s := gpio_set_dir LED_PIN true s
    let s := gpio_set_function SPEAKER_PIN GPIO_FUNC_SIO s
    let s := gpio_set_dir SPEAKER_PIN true s
    some s

/-- Lines 130 to 133 of `main`: clear the pending button interrupt, enable its
rising edge for processor 0, enable the IO Bank 0 line in the NVIC. -/
def setupInterrupt (bus : Bus) (s : Cpu) : Cpu :=
  let s := store (io_intr (BUTTON_PIN / 8)) (0xF <<< (4 * (BUTTON_PIN % 8))) s
  let (e, s) := load bus (io_proc0_inte (BUTTON_PIN / 8)) s
  let s := store (io_proc0_inte (BUTTON_PIN / 8))
    (e ||| (GPIO_INT_EDGE_HIGH <<< (4 * (BUTTON_PIN % 8)))) s
  store NVIC_ISER ((1 <<< IO_BANK0_IRQ) % 4294967296) s

/-- The loop `for (int i = 0; i < 3; i++)` of `main`, the startup test
pattern; the fuel is only a bound on the rounds. -/
def testLoop : Nat → Nat → Cpu → Cpu
  | 0, _, s => s
  | fuel + 1, i, s =>
    if i < 3 then
      let s := gpio_put LED_PIN true s
      let s := gpio_put SPEAKER_PIN true s
      let s := delay 100000 s
      let s := gpio_put LED_PIN false s
      let s := gpio_put SPEAKER_PIN false s
      let s := delay 100000 s
      testLoop fuel (i + 1) s
    else s

/-- Lines 135 to 143 of `main`. -/
def selfTest (s : Cpu) : Cpu :=
  testLoop 3 0 s

/-- The first `rounds` rounds of the loop `while (1) wfi` that ends `main`. -/
def sleepLoop : Nat → Cpu → Cpu
  | 0, s => s
  | rounds + 1, s => sleepLoop rounds (s.emit Event.wfi)

/-- The function `main` of `transmitter.c`, which never returns: the state
after `rounds` rounds of its final loop, or `none` when the wait for the reset
bit outlasts the fuel. -/
def main (bus : Bus) (fuel rounds : Nat) (s : Cpu) : Option Cpu :=
  match configure bus fuel s with
  | none => none
  | some s =>
    let s := setupInterrupt bus s
    let s := selfTest s
    some (sleepLoop rounds s)

/-- The register stores of a trace, as (address, value) pairs in program
order. -/
def writes : List Event → List (Nat × Nat)
  | [] => []
  | Event.write a v :: rest => (a, v) :: writes rest
  | _ :: rest => writes rest

/-- The state at reset: no load and no event yet. -/
def Cpu.reset : Cpu := { loads := 0, log := [] }

/-- A store to one of the two aliases `gpio_out_set` and `gpio_out_clr` of the
GPIO output register. -/
def isOutputWrite (w : Nat × Nat) : Bool :=
  w.1 = sio_gpio_out_set || w.1 = sio_gpio_out_clr

/-- The store that sets the IO Bank 0 bit of the NVIC set-enable register. -/
def nvicEnable : Nat × Nat := (NVIC_ISER, 1 <<< IO_BANK0_IRQ)

/-- The ordering the spec states: in a sequence of stores, every store to
the GPIO output aliases comes before the store that enables the IO Bank 0 line
in the NVIC. -/
def OutputWritesBeforeEnable (ws : List (Nat × Nat)) : Prop :=
  ∀ (i j : Nat) (w : Nat × Nat), ws[i]? = some nvicEnable → ws[j]? = some w → isOutputWrite w = true → j < i

/-- The opposite ordering: every store to the GPIO output aliases comes after
the store that enables the IO Bank 0 line in the NVIC. -/
def OutputWritesAfterEnable (ws : List (Nat × Nat)) : Prop :=
  ∀ (i j : Nat) (w : Nat × Nat), ws[i]? = some nvicEnable → ws[j]? = some w → isOutputWrite w = true → i < j

/-- One pulse of the startup test pattern as a sequence of events: LED and
speaker high, 100000 `nop`, LED and speaker low, 100000 `nop`. -/
def pulse : List Event :=
  [Event.write sio_gpio_out_set (1 <<< 25), Event.write sio_gpio_out_set (1 <<< 21)]
    ++ List.replicate 100000 Event.nop
    ++ [Event.write sio_gpio_out_clr (1 <<< 25), Event.write sio_gpio_out_clr (1 <<< 21)]
    ++ List.replicate 100000 Event.nop

/-- Hardware on which every load returns zero. -/
def quietBus : Bus := fun _ _ => 0

end Transmitter

/-! ## Theorems about `crc32.cpp` -/

namespace CRC

theorem foldl_replicate_add {α β : Type} (f : β → α → β) (r : β) (x : α) (a b : Nat) :
    List.foldl f r (List.replicate (a + b) x)
      = List.foldl f (List.foldl f r (List.replicate a x)) (List.replicate b x) := by
  rw [List.replicate_add, List.foldl_append]

/-! The register after each further 9 zero bytes, starting from the initial
value of CRC-32/MPEG-2. -/

set_option maxRecDepth 100000 in
theorem zeros_9 :
    List.foldl (updateByte CRC_32_MPEG2.polynomial)
      (CRC_32_MPEG2.initialValue % 4294967296) (List.replicate 9 0) = 2329374616 := by
  decide

set_option maxRecDepth 100000 in
theorem zeros_18 :
    List.foldl (updateByte CRC_32_MPEG2.polynomial)
      (CRC_32_MPEG2.initialValue % 4294967296) (List.replicate 18 0) = 1292642073 := by
  rw [show (18 : Nat) = 9 + 9 from rfl, foldl_replicate_add, zeros_9]
  decide

set_option maxRecDepth 100000 in
theorem zeros_27 :
    List.foldl (updateByte CRC_32_MPEG2.polynomial)
      (CRC_32_MPEG2.initialValue % 4294967296) (List.replicate 27 0) = 850764199 := by
  rw [show (27 : Nat) = 18 + 9 from rfl, foldl_replicate_add, zeros_18]
  decide

set_option maxRecDepth 100000 in
theorem zeros_36 :
    List.foldl (updateByte CRC_32_MPEG2.polynomial)
      (CRC_32_MPEG2.initialValue % 4294967296) (List.replicate 36 0) = 1420989097 := by
  rw [show (36 : Nat) = 27 + 9 from rfl, foldl_replicate_add, zeros_27]
  decide

set_option maxRecDepth 100000 in
theorem zeros_45 :
    List.foldl (updateByte CRC_32_MPEG2.polynomial)
      (CRC_32_MPEG2.initialValue % 4294967296) (List.replicate 45 0) = 3658940060 := by
  rw [show (45 : Nat) = 36 + 9 from rfl, foldl_replicate_add, zeros_36]
  decide

set_option maxRecDepth 100000 in
theorem zeros_54 :
    List.foldl (updateByte CRC_32_MPEG2.polynomial)
      (CRC_32_MPEG2.initialValue % 4294967296) (List.replicate 54 0) = 1078540883 := by
  rw [show (54 : Nat) = 45 + 9 from rfl, foldl_replicate_add, zeros_45]
  decide

set_option maxRecDepth 100000 in
theorem zeros_63 :
    List.foldl (updateByte CRC_32_MPEG2.polynomial)
      (CRC_32_MPEG2.initialValue % 4294967296) (List.replicate 63 0) = 3634670312 := by
  rw [show (63 : Nat) = 54 + 9 from rfl, foldl_replicate_add, zeros_54]
  decide

set_option maxRecDepth 100000 in
theorem zeros_72 :
    List.foldl (updateByte CRC_32_MPEG2.polynomial)
      (CRC_32_MPEG2.initialValue % 4294967296) (List.replicate 72 0) = 3038952463 := by
  rw [show (72 : Nat) = 63 + 9 from rfl, foldl_replicate_add, zeros_63]
  decide

set_option maxRecDepth 100000 in
theorem zeros_81 :
    List.foldl (updateByte CRC_32_MPEG2.polynomial)
      (CRC_32_MPEG2.initialValue % 4294967296) (List.replicate 81 0) = 3828242470 := by
  rw [show (81 : Nat) = 72 + 9 from rfl, foldl_replicate_add, zeros_72]
  decide

set_option maxRecDepth 100000 in
theorem zeros_90 :
    List.foldl (updateByte CRC_32_MPEG2.polynomial)
      (CRC_32_MPEG2.initialValue % 4294967296) (List.replicate 90 0) = 863994489 := by
  rw [show (90 : Nat) = 81 + 9 from rfl, foldl_replicate_add, zeros_81]
  decide

set_option maxRecDepth 100000 in
theorem zeros_99 :
    List.foldl (updateByte CRC_32_MPEG2.polynomial)
      (CRC_32_MPEG2.initialValue % 4294967296) (List.replicate 99 0) = 1543454862 := by
  rw [show (99 : Nat) = 90 + 9 from rfl, foldl_replicate_add, zeros_90]
  decide

set_option maxRecDepth 100000 in
theorem zeros_108 :
    List.foldl (updateByte CRC_32_MPEG2.polynomial)
      (CRC_32_MPEG2.initialValue % 4294967296) (List.replicate 108 0) = 809550095 := by
  rw [show (108 : Nat) = 99 + 9 from rfl, foldl_replicate_add, zeros_99]
  decide

set_option maxRecDepth 100000 in
theorem zeros_117 :
    List.foldl (updateByte CRC_32_MPEG2.polynomial)
      (CRC_32_MPEG2.initialValue % 4294967296) (List.replicate 117 0) = 4172856848 := by
  rw [show (117 : Nat) = 108 + 9 from rfl, foldl_replicate_add, zeros_108]
  decide

set_option maxRecDepth 100000 in
theorem zeros_126 :
    List.foldl (updateByte CRC_32_MPEG2.polynomial)
      (CRC_32_MPEG2.initialValue % 4294967296) (List.replicate 126 0) = 995742895 := by
  rw [show (126 : Nat) = 117 + 9 from rfl, foldl_replicate_add, zeros_117]
  decide

set_option maxRecDepth 100000 in
theorem zeros_135 :
    List.foldl (updateByte CRC_32_MPEG2.polynomial)
      (CRC_32_MPEG2.initialValue % 4294967296) (List.replicate 135 0) = 469723427 := by
  rw [show (135 : Nat) = 126 + 9 from rfl, foldl_replicate_add, zeros_126]
  decide

set_option maxRecDepth 100000 in
theorem zeros_144 :
    List.foldl (updateByte CRC_32_MPEG2.polynomial)
      (CRC_32_MPEG2.initialValue % 4294967296) (List.replicate 144 0) = 3328159729 := by
  rw [show (144 : Nat) = 135 + 9 from rfl, foldl_replicate_add, zeros_135]
  decide

set_option maxRecDepth 100000 in
theorem zeros_153 :
    List.foldl (updateByte CRC_32_MPEG2.polynomial)
      (CRC_32_MPEG2.initialValue % 4294967296) (List.replicate 153 0) = 157329227 := by
  rw [show (153 : Nat) = 144 + 9 from rfl, foldl_replicate_add, zeros_144]
  decide

set_option maxRecDepth 100000 in
theorem zeros_162 :
    List.foldl (updateByte CRC_32_MPEG2.polynomial)
      (CRC_32_MPEG2.initialValue % 4294967296) (List.replicate 162 0) = 3036555584 := by
  rw [show (162 : Nat) = 153 + 9 from rfl, foldl_replicate_add, zeros_153]
  decide

set_option maxRecDepth 100000 in
theorem zeros_171 :
    List.foldl (updateByte CRC_32_MPEG2.polynomial)
      (CRC_32_MPEG2.initialValue % 4294967296) (List.replicate 171 0) = 933789962 := by
  rw [show (171 : Nat) = 162 + 9 from rfl, foldl_replicate_add, zeros_162]
  decide

set_option maxRecDepth 100000 in
theorem zeros_180 :
    List.foldl (updateByte CRC_32_MPEG2.polynomial)
      (CRC_32_MPEG2.initialValue % 4294967296) (List.replicate 180 0) = 2149936467 := by
  rw [show (180 : Nat) = 171 + 9 from rfl, foldl_replicate_add, zeros_171]
  decide

set_option maxRecDepth 100000 in
theorem zeros_189 :
    List.foldl (updateByte CRC_32_MPEG2.polynomial)
      (CRC_32_MPEG2.initialValue % 4294967296) (List.replicate 189 0) = 3193787731 := by
  rw [show (189 : Nat) = 180 + 9 from rfl, foldl_replicate_add, zeros_180]
  decide

set_option maxRecDepth 100000 in
theorem zeros_198 :
    List.foldl (updateByte CRC_32_MPEG2.polynomial)
      (CRC_32_MPEG2.initialValue % 4294967296) (List.replicate 198 0) = 4177153704 := by
  rw [show (198 : Nat) = 189 + 9 from rfl, foldl_replicate_add, zeros_189]
  decide

set_option maxRecDepth 100000 in
theorem zeros_207 :
    List.foldl (updateByte CRC_32_MPEG2.polynomial)
      (CRC_32_MPEG2.initialValue % 4294967296) (List.replicate 207 0) = 125618667 := by
  rw [show (207 : Nat) = 198 + 9 from rfl, foldl_replicate_add, zeros_198]
  decide

set_option maxRecDepth 100000 in
theorem zeros_216 :
    List.foldl (updateByte CRC_32_MPEG2.polynomial)
      (CRC_32_MPEG2.initialValue % 4294967296) (List.replicate 216 0) = 1224824542 := by
  rw [show (216 : Nat) = 207 + 9 from rfl, foldl_replicate_add, zeros_207]
  decide

set_option maxRecDepth 100000 in
theorem zeros_225 :
    List.foldl (updateByte CRC_32_MPEG2.polynomial)
      (CRC_32_MPEG2.initialValue % 4294967296) (List.replicate 225 0) = 3548438175 := by
  rw [show (225 : Nat) = 216 + 9 from rfl, foldl_replicate_add, zeros_216]
  decide

set_option maxRecDepth 100000 in
theorem zeros_234 :
    List.foldl (updateByte CRC_32_MPEG2.polynomial)
      (CRC_32_MPEG2.initialValue % 4294967296) (List.replicate 234 0) = 3498726228 := by
  rw [show (234 : Nat) = 225 + 9 from rfl, foldl_replicate_add, zeros_225]
  decide

set_option maxRecDepth 100000 in
theorem zeros_243 :
    List.foldl (updateByte CRC_32_MPEG2.polynomial)
      (CRC_32_MPEG2.initialValue % 4294967296) (List.replicate 243 0) = 147964331 := by
  rw [show (243 : Nat) = 234 + 9 from rfl, foldl_replicate_add, zeros_234]
  decide

set_option maxRecDepth 100000 in
theorem zeros_252 :
    List.foldl (updateByte CRC_32_MPEG2.polynomial)
      (CRC_32_MPEG2.initialValue % 4294967296) (List.replicate 252 0) = 1885682074 := by
  rw [show (252 : Nat) = 243 + 9 from rfl, foldl_replicate_add, zeros_243]
  decide

theorem Calculate_replicate (n x : Nat) (p : Parameters) :
    Calculate (List.replicate n x) n p
      = (List.foldl (updateByte p.polynomial) (p.initialValue % 4294967296)
          (List.replicate n x) ^^^ p.finalXOR) % 4294967296 := by
  unfold Calculate
  rw [List.take_replicate, Nat.min_self]

/-- The CRC-32/MPEG-2 of 252 zero bytes is 0x7065399A. -/
theorem Calculate_zeros :
    Calculate (List.replicate 252 0) 252 CRC_32_MPEG2 = 0x7065399A := by
  rw [Calculate_replicate, zeros_252]
  decide

set_option maxRecDepth 100000 in
/-- The published check value of CRC-32/MPEG-2: the ASCII digits `123456789`
give 0x0376E6E7. -/
theorem Calculate_check_value :
    Calculate [49, 50, 51, 52, 53, 54, 55, 56, 57] 9 CRC_32_MPEG2 = 0x0376E6E7 := by
  decide

/-! The register after the bytes 1, 2, 3, and then after each further 9 zero
bytes. -/

theorem Calculate_append_replicate (pre : List Nat) (n x size : Nat) (p : Parameters)
    (h : size = pre.length + n) :
    Calculate (pre ++ List.replicate n x) size p
      = (List.foldl (updateByte p.polynomial)
          (List.foldl (updateByte p.polynomial) (p.initialValue % 4294967296) pre)
          (List.replicate n x) ^^^ p.finalXOR) % 4294967296 := by
  unfold Calculate
  rw [List.take_of_length_le (by simp [h]), List.foldl_append]

set_option maxRecDepth 100000 in
theorem boot_prefix :
    List.foldl (updateByte CRC_32_MPEG2.polynomial)
      (CRC_32_MPEG2.initialValue % 4294967296) [1, 2, 3] = 453863761 := by
  decide

set_option maxRecDepth 100000 in
theorem boot_zeros_9 :
    List.foldl (updateByte CRC_32_MPEG2.polynomial) 453863761 (List.replicate 9 0) = 2088917074 := by
  decide

set_option maxRecDepth 100000 in
theorem boot_zeros_18 :
    List.foldl (updateByte CRC_32_MPEG2.polynomial) 453863761 (List.replicate 18 0) = 2647430518 := by
  rw [show (18 : Nat) = 9 + 9 from rfl, foldl_replicate_add, boot_zeros_9]
  decide

set_option maxRecDepth 100000 in
theorem boot_zeros_27 :
    List.foldl (updateByte CRC_32_MPEG2.polynomial) 453863761 (List.replicate 27 0) = 4082832112 := by
  rw [show (27 : Nat) = 18 + 9 from rfl, foldl_replicate_add, boot_zeros_18]
  decide

set_option maxRecDepth 100000 in
theorem boot_zeros_36 :
    List.foldl (updateByte CRC_32_MPEG2.polynomial) 453863761 (List.replicate 36 0) = 1643415662 := by
  rw [show (36 : Nat) = 27 + 9 from rfl, foldl_replicate_add, boot_zeros_27]
  decide

set_option maxRecDepth 100000 in
theorem boot_zeros_45 :
    List.foldl (updateByte CRC_32_MPEG2.polynomial) 453863761 (List.replicate 45 0) = 2567885716 := by
  rw [show (45 : Nat) = 36 + 9 from rfl, foldl_replicate_add, boot_zeros_36]
  decide

set_option maxRecDepth 100000 in
theorem boot_zeros_54 :
    List.foldl (updateByte CRC_32_MPEG2.polynomial) 453863761 (List.replicate 54 0) = 1583348516 := by
  rw [show (54 : Nat) = 45 + 9 from rfl, foldl_replicate_add, boot_zeros_45]
  decide

set_option maxRecDepth 100000 in
theorem boot_zeros_63 :
    List.foldl (updateByte CRC_32_MPEG2.polynomial) 453863761 (List.replicate 63 0) = 2729314643 := by
  rw [show (63 : Nat) = 54 + 9 from rfl, foldl_replicate_add, boot_zeros_54]
  decide

set_option maxRecDepth 100000 in
theorem boot_zeros_72 :
    List.foldl (updateByte CRC_32_MPEG2.polynomial) 453863761 (List.replicate 72 0) = 1246327028 := by
  rw [show (72 : Nat) = 63 + 9 from rfl, foldl_replicate_add, boot_zeros_63]
  decide

set_option maxRecDepth 100000 in
theorem boot_zeros_81 :
    List.foldl (updateByte CRC_32_MPEG2.polynomial) 453863761 (List.replicate 81 0) = 1130898409 := by
  rw [show (81 : Nat) = 72 + 9 from rfl, foldl_replicate_add, boot_zeros_72]
  decide

set_option maxRecDepth 100000 in
theorem boot_zeros_90 :
    List.foldl (updateByte CRC_32_MPEG2.polynomial) 453863761 (List.replicate 90 0) = 2154900264 := by
  rw [show (90 : Nat) = 81 + 9 from rfl, foldl_replicate_add, boot_zeros_81]
  decide

set_option maxRecDepth 100000 in
theorem boot_zeros_99 :
    List.foldl (updateByte CRC_32_MPEG2.polynomial) 453863761 (List.replicate 99 0) = 237469801 := by
  rw [show (99 : Nat) = 90 + 9 from rfl, foldl_replicate_add, boot_zeros_90]
  decide

set_option maxRecDepth 100000 in
theorem boot_zeros_108 :
    List.foldl (updateByte CRC_32_MPEG2.polynomial) 453863761 (List.replicate 108 0) = 627609177 := by
  rw [show (108 : Nat) = 99 + 9 from rfl, foldl_replicate_add, boot_zeros_99]
  decide

set_option maxRecDepth 100000 in
theorem boot_zeros_117 :
    List.foldl (updateByte CRC_32_MPEG2.polynomial) 453863761 (List.replicate 117 0) = 1872789167 := by
  rw [show (117 : Nat) = 108 + 9 from rfl, foldl_replicate_add, boot_zeros_108]
  decide

set_option maxRecDepth 100000 in
theorem boot_zeros_126 :
    List.foldl (updateByte CRC_32_MPEG2.polynomial) 453863761 (List.replicate 126 0) = 367599658 := by
  rw [show (126 : Nat) = 117 + 9 from rfl, foldl_replicate_add, boot_zeros_117]
  decide

set_option maxRecDepth 100000 in
theorem boot_zeros_135 :
    List.foldl (updateByte CRC_32_MPEG2.polynomial) 453863761 (List.replicate 135 0) = 2010093208 := by
  rw [show (135 : Nat) = 126 + 9 from rfl, foldl_replicate_add, boot_zeros_126]
  decide

set_option maxRecDepth 100000 in
theorem boot_zeros_144 :
    List.foldl (updateByte CRC_32_MPEG2.polynomial) 453863761 (List.replicate 144 0) = 2915624861 := by
  rw [show (144 : Nat) = 135 + 9 from rfl, foldl_replicate_add, boot_zeros_135]
  decide

set_option maxRecDepth 100000 in
theorem boot_zeros_153 :
    List.foldl (updateByte CRC_32_MPEG2.polynomial) 453863761 (List.replicate 153 0) = 2090246352 := by
  rw [show (153 : Nat) = 144 + 9 from rfl, foldl_replicate_add, boot_zeros_144]
  decide

set_option maxRecDepth 100000 in
theorem boot_zeros_162 :
    List.foldl (updateByte CRC_32_MPEG2.polynomial) 453863761 (List.replicate 162 0) = 771626376 := by
  rw [show (162 : Nat) = 153 + 9 from rfl, foldl_replicate_add, boot_zeros_153]
  decide

set_option maxRecDepth 100000 in
theorem boot_zeros_171 :
    List.foldl (updateByte CRC_32_MPEG2.polynomial) 453863761 (List.replicate 171 0) = 1501195323 := by
  rw [show (171 : Nat) = 162 + 9 from rfl, foldl_replicate_add, boot_zeros_162]
  decide

set_option maxRecDepth 100000 in
theorem boot_zeros_180 :
    List.foldl (updateByte CRC_32_MPEG2.polynomial) 453863761 (List.replicate 180 0) = 379984525 := by
  rw [show (180 : Nat) = 171 + 9 from rfl, foldl_replicate_add, boot_zeros_171]
  decide

set_option maxRecDepth 100000 in
theorem boot_zeros_189 :
    List.foldl (updateByte CRC_32_MPEG2.polynomial) 453863761 (List.replicate 189 0) = 3327604861 := by
  rw [show (189 : Nat) = 180 + 9 from rfl, foldl_replicate_add, boot_zeros_180]
  decide

set_option maxRecDepth 100000 in
theorem boot_zeros_198 :
    List.foldl (updateByte CRC_32_MPEG2.polynomial) 453863761 (List.replicate 198 0) = 3992978159 := by
  rw [show (198 : Nat) = 189 + 9 from rfl, foldl_replicate_add, boot_zeros_189]
  decide

set_option maxRecDepth 100000 in
theorem boot_zeros_207 :
    List.foldl (updateByte CRC_32_MPEG2.polynomial) 453863761 (List.replicate 207 0) = 592411163 := by
  rw [show (207 : Nat) = 198 + 9 from rfl, foldl_replicate_add, boot_zeros_198]
  decide

set_option maxRecDepth 100000 in
theorem boot_zeros_216 :
    List.foldl (updateByte CRC_32_MPEG2.polynomial) 453863761 (List.replicate 216 0) = 3685894059 := by
  rw [show (216 : Nat) = 207 + 9 from rfl, foldl_replicate_add, boot_zeros_207]
  decide

set_option maxRecDepth 100000 in
theorem boot_zeros_225 :
    List.foldl (updateByte CRC_32_MPEG2.polynomial) 453863761 (List.replicate 225 0) = 1582063695 := by
  rw [show (225 : Nat) = 216 + 9 from rfl, foldl_replicate_add, boot_zeros_216]
  decide

set_option maxRecDepth 100000 in
theorem boot_zeros_234 :
    List.foldl (updateByte CRC_32_MPEG2.polynomial) 453863761 (List.replicate 234 0) = 3322541977 := by
  rw [show (234 : Nat) = 225 + 9 from rfl, foldl_replicate_add, boot_zeros_225]
  decide

set_option maxRecDepth 100000 in
theorem boot_zeros_243 :
    List.foldl (updateByte CRC_32_MPEG2.polynomial) 453863761 (List.replicate 243 0) = 2803496865 := by
  rw [show (243 : Nat) = 234 + 9 from rfl, foldl_replicate_add, boot_zeros_234]
  decide

set_option maxRecDepth 100000 in
theorem boot_zeros_249 :
    List.foldl (updateByte CRC_32_MPEG2.polynomial) 453863761 (List.replicate 249 0) = 2809575539 := by
  rw [show (249 : Nat) = 243 + 6 from rfl, foldl_replicate_add, boot_zeros_243]
  decide

/-- The CRC-32/MPEG-2 of the bytes 1, 2, 3 followed by 249 zero bytes is
0xA776B873. -/
theorem Calculate_boot :
    Calculate ([1, 2, 3] ++ List.replicate 249 0) 252 CRC_32_MPEG2 = 0xA776B873 := by
  rw [Calculate_append_replicate [1, 2, 3] 249 0 252 CRC_32_MPEG2 rfl, boot_prefix,
    boot_zeros_249]
  decide

theorem Calculate_lt (data : List Nat) (size : Nat) (p : Parameters) :
    Calculate data size p < 4294967296 :=
  Nat.mod_lt _ (by decide)

end CRC

namespace Crc32

theorem binFileData_eq (content : List Nat) (h : content.length ≤ 252) :
    binFileData content = content ++ List.replicate (252 - content.length) 0 := by
  unfold binFileData read
  rw [List.take_of_length_le h, Nat.min_eq_right h, List.drop_replicate]

theorem binFileData_length (content : List Nat) (h : content.length ≤ 252) :
    (binFileData content).length = 252 := by
  rw [binFileData_eq content h, List.length_append, List.length_replicate]
  omega

theorem leValue_storeU32 (v : Nat) (h : v < 4294967296) :
    leValue (storeU32 Endian.little v) = v := by
  simp only [storeU32, leValue]
  omega

theorem storeU32_length (e : Endian) (v : Nat) : (storeU32 e v).length = 4 := by
  cases e <;> rfl

theorem storeU32_lt (e : Endian) (v : Nat) : ∀ b ∈ storeU32 e v, b < 256 := by
  intro b hb
  cases e <;> simp only [storeU32, List.mem_cons, List.mem_singleton, List.not_mem_nil,
    or_false] at hb <;> omega

/-- On a big-endian host the same four bytes come out in the opposite
order. -/
theorem storeU32_big (v : Nat) :
    storeU32 Endian.big v = (storeU32 Endian.little v).reverse := by
  rfl

theorem dotBin_length : ".bin".toList.length = 4 := by decide

theorem substr_tail (s : List Char) (h : 4 ≤ s.length) :
    substr s (s.length - 4) npos = s.drop (s.length - 4) := by
  unfold substr
  apply List.take_of_length_le
  rw [List.length_drop]
  unfold npos
  omega

/-- The extension test lets a path through exactly when the path is some
stem followed by the four characters `.bin`. -/
theorem badExtension_eq_false_iff (path : List Char) :
    badExtension path = false ↔ ∃ stem, path = stem ++ ".bin".toList := by
  constructor
  · intro h
    unfold badExtension at h
    simp only [Bool.or_eq_false_iff, decide_eq_false_iff_not, Nat.not_lt, bne_eq_false_iff_eq] at h
    obtain ⟨hlen, htail⟩ := h
    rw [substr_tail path hlen] at htail
    refine ⟨path.take (path.length - 4), ?_⟩
    rw [← htail, List.take_append_drop]
  · rintro ⟨stem, rfl⟩
    have hlen : 4 ≤ (stem ++ ".bin".toList).length := by
      rw [List.length_append, dotBin_length]
      omega
    unfold badExtension
    simp only [Bool.or_eq_false_iff, decide_eq_false_iff_not, Nat.not_lt, bne_eq_false_iff_eq]
    refine ⟨hlen, ?_⟩
    rw [substr_tail _ hlen, List.length_append, dotBin_length, Nat.add_sub_cancel,
      List.drop_left]

theorem main_cons (host : Host) (prog path : List Char) (rest : List (List Char)) :
    main host (prog :: path :: rest) =
      if badExtension path then
        { exit := 1
          stdout := "The input file must have .bin extension. Exiting ...\n".toList
          ops := [] }
      else
        match host.file path with
        | none =>
          { exit := 1
            stdout := "Could not locate file: ".toList ++ path ++ ". Exiting ...\n".toList
            ops := [FileOp.openInput path false] }
        | some content =>
          if content.length > 252 then
            { exit := 1
              stdout := "The input must be 252 Bytes in size at max. Exiting ...\n".toList
              ops := [FileOp.openInput path true, FileOp.closeInput] }
          else
            if !host.canCreate (outFilePath path) then
              { exit := 1
                stdout := "Failed to create output file: ".toList ++ outFilePath path ++ "\n".toList
                ops := [FileOp.openInput path true, FileOp.closeInput,
                        FileOp.openOutput (outFilePath path) false] }
            else
              { exit := 0
                stdout := "Generated CRC file: ".toList ++ outFilePath path ++ "\n".toList
                ops := [FileOp.openInput path true, FileOp.closeInput,
                        FileOp.openOutput (outFilePath path) true,
                        FileOp.writeOutput (crcText (crcArray host.endian content)),
                        FileOp.closeOutput] } := by
  have h : ¬ (prog :: path :: rest).length < 2 := by
    simp only [List.length_cons]
    omega
  unfold main
  rw [if_neg h]
  rfl

/-- A run that gets as far as writing the output file. -/
theorem main_success (host : Host) (prog path : List Char) (rest : List (List Char))
    (content : List Nat) (hext : badExtension path = false)
    (hfile : host.file path = some content) (hlen : content.length ≤ 252)
    (hout : host.canCreate (outFilePath path) = true) :
    main host (prog :: path :: rest) =
      { exit := 0
        stdout := "Generated CRC file: ".toList ++ outFilePath path ++ "\n".toList
        ops := [FileOp.openInput path true, FileOp.closeInput,
                FileOp.openOutput (outFilePath path) true,
                FileOp.writeOutput (crcText (crcArray host.endian content)),
                FileOp.closeOutput] } := by
  rw [main_cons]
  simp only [hext, hfile, hout, Bool.false_eq_true, if_false, gt_iff_lt, Nat.not_lt.mpr hlen,
    Bool.not_true]

theorem findLastAux_none (chars name : List Char) (h : ∀ x ∈ name, x ∉ chars) (i acc : Nat) :
    findLastAux chars name i acc = acc := by
  induction name generalizing i acc with
  | nil => rfl
  | cons c rest ih =>
    have hc : c ∉ chars := h c (List.mem_cons_self c rest)
    simp only [findLastAux, hc, if_false]
    exact ih (fun x hx => h x (List.mem_cons_of_mem c hx)) (i + 1) acc

theorem findLastAux_last (chars dir name : List Char) (c : Char) (hc : c ∈ chars)
    (h : ∀ x ∈ name, x ∉ chars) (i acc : Nat) :
    findLastAux chars (dir ++ c :: name) i acc = i + dir.length := by
  induction dir generalizing i acc with
  | nil =>
    simp only [List.nil_append, findLastAux, hc, if_true, List.length_nil, Nat.add_zero]
    exact findLastAux_none chars name h (i + 1) i
  | cons d rest ih =>
    show findLastAux chars (rest ++ c :: name) (i + 1) (if d ∈ chars then i else acc)
      = i + (rest.length + 1)
    rw [ih]
    omega

/-- When the path holds a separator, the output path is what stands before
the last separator, followed by `/crc.c`. -/
theorem outFilePath_of_separator (dir name : List Char) (c : Char)
    (hc : c ∈ "/\\".toList) (h : ∀ x ∈ name, x ∉ "/\\".toList) :
    outFilePath (dir ++ c :: name) = dir ++ "/crc.c".toList := by
  unfold outFilePath find_last_of substr
  rw [findLastAux_last _ dir name c hc h, List.drop_zero, Nat.zero_add, List.take_left]

/-- When the path holds no separator, `find_last_of` answers `npos` and the
whole path is taken for the directory. -/
theorem outFilePath_of_bare_name (name : List Char) (hlen : name.length ≤ npos)
    (h : ∀ x ∈ name, x ∉ "/\\".toList) :
    outFilePath name = name ++ "/crc.c".toList := by
  unfold outFilePath find_last_of substr
  rw [findLastAux_none _ name h, List.drop_zero, List.take_of_length_le hlen]

theorem crcArray_empty (e : Endian) :
    crcArray e [] = storeU32 e 0x7065399A := by
  unfold crcArray
  rw [binFileData_eq [] (by decide)]
  show storeU32 e (CRC.Calculate (List.replicate 252 0) 252 CRC.CRC_32_MPEG2) = _
  rw [CRC.Calculate_zeros]

/-- The text of `crc.c` names the four bytes of `crc` in index order. -/
theorem crcText_four (a b c d : Nat) :
    crcText [a, b, c, d]
      = "__attribute__((section(\".crc\"))) unsigned char crc[4] = \x7b".toList
        ++ "0x".toList ++ hex2 a ++ ", ".toList
        ++ "0x".toList ++ hex2 b ++ ", ".toList
        ++ "0x".toList ++ hex2 c ++ ", ".toList
        ++ "0x".toList ++ hex2 d ++ "\x7d;".toList := by
  simp [crcText, List.range, List.range.loop]

theorem crcText_empty :
    crcText [0x9A, 0x39, 0x65, 0x70]
      = "__attribute__((section(\".crc\"))) unsigned char crc[4] = \x7b0x9a, 0x39, 0x65, 0x70\x7d;".toList := by
  decide

set_option maxRecDepth 100000 in
/-- The stream output of a byte is its high nibble followed by its low nibble,
both as lower-case hexadecimal digits. -/
theorem hex2_eq : ∀ b, b < 256 → hex2 b = [lowerHexDigit (b / 16), lowerHexDigit (b % 16)] := by
  decide

/-- The text the tool writes for the array that a little-endian host stores
for the checksum `c` is the text the spec asks for. -/
theorem crcText_storeU32 (c : Nat) :
    crcText (storeU32 Endian.little c) = littleEndianText c := by
  have h0 : c % 256 < 256 := Nat.mod_lt _ (by decide)
  have h1 : c / 256 % 256 < 256 := Nat.mod_lt _ (by decide)
  have h2 : c / 65536 % 256 < 256 := Nat.mod_lt _ (by decide)
  have h3 : c / 16777216 % 256 < 256 := Nat.mod_lt _ (by decide)
  have e0 : c % 256 / 16 = c / 16 % 16 := by omega
  have e1 : c % 256 % 16 = c % 16 := by omega
  have e2 : c / 256 % 256 / 16 = c / 4096 % 16 := by omega
  have e3 : c / 256 % 256 % 16 = c / 256 % 16 := by omega
  have e4 : c / 65536 % 256 / 16 = c / 1048576 % 16 := by omega
  have e5 : c / 65536 % 256 % 16 = c / 65536 % 16 := by omega
  have e6 : c / 16777216 % 256 / 16 = c / 268435456 % 16 := by omega
  have e7 : c / 16777216 % 256 % 16 = c / 16777216 % 16 := by omega
  unfold storeU32 littleEndianText
  rw [crcText_four, hex2_eq _ h0, hex2_eq _ h1, hex2_eq _ h2, hex2_eq _ h3,
    e0, e1, e2, e3, e4, e5, e6, e7]

/-- The spec-side text at three checksums: 252 zero bytes, the bytes 1, 2, 3
padded with zeros, and 252 bytes 0xFF. -/
theorem littleEndianText_examples :
    littleEndianText 0x7065399A
      = "__attribute__((section(\".crc\"))) unsigned char crc[4] = \x7b0x9a, 0x39, 0x65, 0x70\x7d;".toList ∧
    littleEndianText 0xA776B873
      = "__attribute__((section(\".crc\"))) unsigned char crc[4] = \x7b0x73, 0xb8, 0x76, 0xa7\x7d;".toList ∧
    littleEndianText 0x0B8FD31A
      = "__attribute__((section(\".crc\"))) unsigned char crc[4] = \x7b0x1a, 0xd3, 0x8f, 0x0b\x7d;".toList := by
  decide

/-- The run on `build/boot.bin`, which holds the bytes 1, 2, 3: the tool
writes the bytes 0x73, 0xb8, 0x76, 0xa7 to `build/crc.c`. -/
theorem main_build_example :
    main scenarioBuild ["crc32".toList, "build/boot.bin".toList] =
      { exit := 0
        stdout := "Generated CRC file: build/crc.c\n".toList
        ops := [FileOp.openInput "build/boot.bin".toList true, FileOp.closeInput,
                FileOp.openOutput "build/crc.c".toList true,
                FileOp.writeOutput
                  "__attribute__((section(\".crc\"))) unsigned char crc[4] = \x7b0x73, 0xb8, 0x76, 0xa7\x7d;".toList,
                FileOp.closeOutput] } := by
  have hcrc : crcText (crcArray scenarioBuild.endian [1, 2, 3]) = littleEndianText 0xA776B873 := by
    show crcText (crcArray Endian.little [1, 2, 3]) = _
    unfold crcArray
    rw [crcText_storeU32, binFileData_eq [1, 2, 3] (by decide)]
    show littleEndianText (CRC.Calculate ([1, 2, 3] ++ List.replicate 249 0) 252
      CRC.CRC_32_MPEG2) = _
    rw [CRC.Calculate_boot]
  rw [main_success scenarioBuild "crc32".toList "build/boot.bin".toList [] [1, 2, 3]
    (by decide) (by decide) (by decide) (by decide), hcrc, littleEndianText_examples.2.1,
    show outFilePath "build/boot.bin".toList = "build/crc.c".toList from by decide]
  rfl

/-- C1: on a little-endian host, for every accepted input of at most 252
bytes, the tool exits with status 0 and the text it writes to the output file
names, as `0x` and two lower-case hexadecimal digits each, the four bytes of
the CRC-32/MPEG-2 of exactly 252 bytes (the input followed by zero bytes) from
the least significant byte to the most significant one.  These are the four
bytes of the array `crc` in index order: the array has length four, every
entry is a byte, and read with the least significant byte first it is that
CRC. -/
theorem main_emits_crc_of_padded_input (host : Host) (prog path : List Char)
    (rest : List (List Char)) (content : List Nat)
    (hend : host.endian = Endian.little) (hext : badExtension path = false)
    (hfile : host.file path = some content) (hlen : content.length ≤ 252)
    (hout : host.canCreate (outFilePath path) = true) :
    (main host (prog :: path :: rest)).exit = 0 ∧
    (main host (prog :: path :: rest)).ops =
      [FileOp.openInput path true, FileOp.closeInput,
       FileOp.openOutput (outFilePath path) true,
       FileOp.writeOutput
         (littleEndianText
           (CRC.Calculate (content ++ List.replicate (252 - content.length) 0) 252
             CRC.CRC_32_MPEG2)),
       FileOp.closeOutput] ∧
    (main host (prog :: path :: rest)).ops =
      [FileOp.openInput path true, FileOp.closeInput,
       FileOp.openOutput (outFilePath path) true,
       FileOp.writeOutput (crcText (crcArray Endian.little content)),
       FileOp.closeOutput] ∧
    crcText (crcArray Endian.little content) =
      "__attribute__((section(\".crc\"))) unsigned char crc[4] = \x7b".toList
        ++ "0x".toList ++ hex2 ((crcArray Endian.little content).getD 0 0) ++ ", ".toList
        ++ "0x".toList ++ hex2 ((crcArray Endian.little content).getD 1 0) ++ ", ".toList
        ++ "0x".toList ++ hex2 ((crcArray Endian.little content).getD 2 0) ++ ", ".toList
        ++ "0x".toList ++ hex2 ((crcArray Endian.little content).getD 3 0)
        ++ "\x7d;".toList ∧
    (∀ i, i < 4 → hex2 ((crcArray Endian.little content).getD i 0) =
      [lowerHexDigit ((crcArray Endian.little content).getD i 0 / 16),
       lowerHexDigit ((crcArray Endian.little content).getD i 0 % 16)]) ∧
    (content ++ List.replicate (252 - content.length) 0).length = 252 ∧
    (crcArray Endian.little content).length = 4 ∧
    (∀ b ∈ crcArray Endian.little content, b < 256) ∧
    leValue (crcArray Endian.little content) =
      CRC.Calculate (content ++ List.replicate (252 - content.length) 0) 252
        CRC.CRC_32_MPEG2 := by
  have htext : crcText (crcArray Endian.little content) =
      littleEndianText
        (CRC.Calculate (content ++ List.replicate (252 - content.length) 0) 252
          CRC.CRC_32_MPEG2) := by
    unfold crcArray
    rw [crcText_storeU32, binFileData_eq content hlen]
  rw [main_success host prog path rest content hext hfile hlen hout, hend]
  refine ⟨rfl, ?_, rfl, ?_, ?_, ?_, storeU32_length _ _, storeU32_lt _ _, ?_⟩
  · show [FileOp.openInput path true, FileOp.closeInput,
       FileOp.openOutput (outFilePath path) true,
       FileOp.writeOutput (crcText (crcArray Endian.little content)),
       FileOp.closeOutput] = _
    rw [htext]
  · unfold crcArray storeU32
    exact crcText_four _ _ _ _
  · intro i hi
    apply hex2_eq
    unfold crcArray storeU32
    interval_cases i
    · exact Nat.mod_lt _ (by decide)
    · exact Nat.mod_lt _ (by decide)
    · exact Nat.mod_lt _ (by decide)
    · exact Nat.mod_lt _ (by decide)
  · rw [← binFileData_eq content hlen]
    exact binFileData_length content hlen
  · unfold crcArray
    rw [leValue_storeU32 _ (CRC.Calculate_lt _ _ _), binFileData_eq content hlen]

/-- C1, at the file `build/boot.bin` holding the bytes 1, 2, 3. -/
theorem main_emits_crc_of_padded_input_witness :
    (main scenarioBuild ["crc32".toList, "build/boot.bin".toList]).exit = 0 ∧
    (main scenarioBuild ["crc32".toList, "build/boot.bin".toList]).ops =
      [FileOp.openInput "build/boot.bin".toList true, FileOp.closeInput,
       FileOp.openOutput (outFilePath "build/boot.bin".toList) true,
       FileOp.writeOutput
         (littleEndianText
           (CRC.Calculate ([1, 2, 3] ++ List.replicate (252 - [1, 2, 3].length) 0) 252
             CRC.CRC_32_MPEG2)),
       FileOp.closeOutput] ∧
    (main scenarioBuild ["crc32".toList, "build/boot.bin".toList]).ops =
      [FileOp.openInput "build/boot.bin".toList true, FileOp.closeInput,
       FileOp.openOutput (outFilePath "build/boot.bin".toList) true,
       FileOp.writeOutput (crcText (crcArray Endian.little [1, 2, 3])),
       FileOp.closeOutput] ∧
    crcText (crcArray Endian.little [1, 2, 3]) =
      "__attribute__((section(\".crc\"))) unsigned char crc[4] = \x7b".toList
        ++ "0x".toList ++ hex2 ((crcArray Endian.little [1, 2, 3]).getD 0 0) ++ ", ".toList
        ++ "0x".toList ++ hex2 ((crcArray Endian.little [1, 2, 3]).getD 1 0) ++ ", ".toList
        ++ "0x".toList ++ hex2 ((crcArray Endian.little [1, 2, 3]).getD 2 0) ++ ", ".toList
        ++ "0x".toList ++ hex2 ((crcArray Endian.little [1, 2, 3]).getD 3 0)
        ++ "\x7d;".toList ∧
    (∀ i, i < 4 → hex2 ((crcArray Endian.little [1, 2, 3]).getD i 0) =
      [lowerHexDigit ((crcArray Endian.little [1, 2, 3]).getD i 0 / 16),
       lowerHexDigit ((crcArray Endian.little [1, 2, 3]).getD i 0 % 16)]) ∧
    ([1, 2, 3] ++ List.replicate (252 - [1, 2, 3].length) 0).length = 252 ∧
    (crcArray Endian.little [1, 2, 3]).length = 4 ∧
    (∀ b ∈ crcArray Endian.little [1, 2, 3], b < 256) ∧
    leValue (crcArray Endian.little [1, 2, 3]) =
      CRC.Calculate ([1, 2, 3] ++ List.replicate (252 - [1, 2, 3].length) 0) 252
        CRC.CRC_32_MPEG2 :=
  main_emits_crc_of_padded_input scenarioBuild "crc32".toList "build/boot.bin".toList []
    [1, 2, 3] rfl (by decide) (by decide) (by decide) (by decide)

/-- C2, as the spec states it, fails: for the empty input the tool does not
emit the bytes 0xC1, 0xF4, 0x9C, 0xBE.  On a little-endian host it emits
0x9A, 0x39, 0x65, 0x70, and on a big-endian host the same bytes reversed. -/
theorem empty_input_bytes_counterexample :
    (main scenarioS1 ["crc32".toList, "./a.bin".toList]).ops =
      [FileOp.openInput "./a.bin".toList true, FileOp.closeInput,
       FileOp.openOutput "./crc.c".toList true,
       FileOp.writeOutput (crcText [0x9A, 0x39, 0x65, 0x70]),
       FileOp.closeOutput] ∧
    crcArray Endian.little [] ≠ [0xC1, 0xF4, 0x9C, 0xBE] ∧
    crcArray Endian.big [] ≠ [0xC1, 0xF4, 0x9C, 0xBE] := by
  refine ⟨?_, ?_, ?_⟩
  · rw [main_success scenarioS1 "crc32".toList "./a.bin".toList [] [] (by decide) (by decide)
      (by decide) (by decide)]
    show [FileOp.openInput "./a.bin".toList true, FileOp.closeInput,
       FileOp.openOutput (outFilePath "./a.bin".toList) true,
       FileOp.writeOutput (crcText (crcArray Endian.little [])),
       FileOp.closeOutput] = _
    rw [crcArray_empty, show outFilePath "./a.bin".toList = "./crc.c".toList from by decide]
    rfl
  · rw [crcArray_empty]
    decide
  · rw [crcArray_empty]
    decide

/-- C2, amended: for the empty input on a little-endian host the four bytes
of `crc` are, in order, 0x9A, 0x39, 0x65, 0x70, the CRC-32/MPEG-2 of 252 zero
bytes (0x7065399A) with the least significant byte first, and the output file
holds them as `0x9a, 0x39, 0x65, 0x70`. -/
theorem empty_input_bytes (host : Host) (prog path : List Char) (rest : List (List Char))
    (hend : host.endian = Endian.little) (hext : badExtension path = false)
    (hfile : host.file path = some []) (hout : host.canCreate (outFilePath path) = true) :
    CRC.Calculate (List.replicate 252 0) 252 CRC.CRC_32_MPEG2 = 0x7065399A ∧
    crcArray host.endian [] = [0x9A, 0x39, 0x65, 0x70] ∧
    leValue [0x9A, 0x39, 0x65, 0x70] = 0x7065399A ∧
    (main host (prog :: path :: rest)).exit = 0 ∧
    (main host (prog :: path :: rest)).ops =
      [FileOp.openInput path true, FileOp.closeInput,
       FileOp.openOutput (outFilePath path) true,
       FileOp.writeOutput
         "__attribute__((section(\".crc\"))) unsigned char crc[4] = \x7b0x9a, 0x39, 0x65, 0x70\x7d;".toList,
       FileOp.closeOutput] := by
  have hcrc : crcArray host.endian [] = [0x9A, 0x39, 0x65, 0x70] := by
    rw [hend, crcArray_empty]
    decide
  rw [main_success host prog path rest [] hext hfile (by decide) hout, hcrc, crcText_empty]
  exact ⟨CRC.Calculate_zeros, rfl, by decide, rfl, rfl⟩

/-- C2, amended, at the empty file `./a.bin` of scenario S1. -/
theorem empty_input_bytes_witness :
    CRC.Calculate (List.replicate 252 0) 252 CRC.CRC_32_MPEG2 = 0x7065399A ∧
    crcArray scenarioS1.endian [] = [0x9A, 0x39, 0x65, 0x70] ∧
    leValue [0x9A, 0x39, 0x65, 0x70] = 0x7065399A ∧
    (main scenarioS1 ["crc32".toList, "./a.bin".toList]).exit = 0 ∧
    (main scenarioS1 ["crc32".toList, "./a.bin".toList]).ops =
      [FileOp.openInput "./a.bin".toList true, FileOp.closeInput,
       FileOp.openOutput (outFilePath "./a.bin".toList) true,
       FileOp.writeOutput
         "__attribute__((section(\".crc\"))) unsigned char crc[4] = \x7b0x9a, 0x39, 0x65, 0x70\x7d;".toList,
       FileOp.closeOutput] :=
  empty_input_bytes scenarioS1 "crc32".toList "./a.bin".toList [] rfl (by decide) (by decide)
    (by decide)

/-- C3 fails on a bare file name: for the path `a.bin` the tool takes the
whole path for the directory and tries to create `a.bin/crc.c`, which cannot
exist because `a.bin` is a regular file; it exits with status 1 and writes
nothing. -/
theorem main_bare_name_fails :
    outFilePath "a.bin".toList = "a.bin/crc.c".toList ∧
    main scenarioS1 ["crc32".toList, "a.bin".toList] =
      { exit := 1
        stdout := "Failed to create output file: a.bin/crc.c\n".toList
        ops := [FileOp.openInput "a.bin".toList true, FileOp.closeInput,
                FileOp.openOutput "a.bin/crc.c".toList false] } := by
  refine ⟨by decide, ?_⟩
  rw [main_cons]
  decide

/-- C4: an input of 253 bytes or more makes the tool exit with status 1 after
it has opened and closed the input file; no operation on the output file
takes place. -/
theorem main_rejects_oversize (host : Host) (prog path : List Char) (rest : List (List Char))
    (content : List Nat) (hext : badExtension path = false)
    (hfile : host.file path = some content) (hsize : 253 ≤ content.length) :
    (main host (prog :: path :: rest)).exit = 1 ∧
    (main host (prog :: path :: rest)).ops
      = [FileOp.openInput path true, FileOp.closeInput] ∧
    ∀ op ∈ (main host (prog :: path :: rest)).ops, op.isOutput = false := by
  have hgt : content.length > 252 := by omega
  have hmain : main host (prog :: path :: rest) =
      { exit := 1
        stdout := "The input must be 252 Bytes in size at max. Exiting ...\n".toList
        ops := [FileOp.openInput path true, FileOp.closeInput] } := by
    rw [main_cons]
    simp only [hext, hfile, hgt, Bool.false_eq_true, if_false, if_true]
  rw [hmain]
  refine ⟨rfl, rfl, ?_⟩
  intro op hop
  simp only [List.mem_cons, List.mem_singleton, List.not_mem_nil, or_false] at hop
  rcases hop with rfl | rfl <;> rfl

/-- C4, at the 253 byte file `./big.bin` of scenario S3. -/
theorem main_rejects_oversize_witness :
    (main scenarioS3 ["crc32".toList, "./big.bin".toList]).exit = 1 ∧
    (main scenarioS3 ["crc32".toList, "./big.bin".toList]).ops
      = [FileOp.openInput "./big.bin".toList true, FileOp.closeInput] ∧
    ∀ op ∈ (main scenarioS3 ["crc32".toList, "./big.bin".toList]).ops,
      op.isOutput = false :=
  main_rejects_oversize scenarioS3 "crc32".toList "./big.bin".toList [] (List.replicate 253 0)
    (by decide) rfl (by rw [List.length_replicate])

/-- C5: a path passes the extension test exactly when it has at least four
characters and ends in `.bin`; for every other path the tool exits with status
1 without any file operation, and for a path that passes, the first file
operation is the attempt to open that path for reading. -/
theorem main_extension_check (host : Host) (prog path : List Char) (rest : List (List Char)) :
    (badExtension path = false ↔
      4 ≤ path.length ∧ path.drop (path.length - 4) = ['.', 'b', 'i', 'n']) ∧
    (badExtension path = false ↔ ∃ stem, path = stem ++ ['.', 'b', 'i', 'n']) ∧
    (badExtension path = true →
      main host (prog :: path :: rest) =
        { exit := 1
          stdout := "The input file must have .bin extension. Exiting ...\n".toList
          ops := [] }) ∧
    (badExtension path = false →
      ∃ ok, (main host (prog :: path :: rest)).ops.head? = some (FileOp.openInput path ok)) := by
  refine ⟨?_, badExtension_eq_false_iff path, ?_, ?_⟩
  · constructor
    · intro h
      obtain ⟨stem, rfl⟩ := (badExtension_eq_false_iff _).mp h
      refine ⟨by simp, ?_⟩
      rw [List.length_append, dotBin_length, Nat.add_sub_cancel, List.drop_left]
      rfl
    · rintro ⟨hlen, htail⟩
      refine (badExtension_eq_false_iff _).mpr ⟨path.take (path.length - 4), ?_⟩
      show path = List.take (path.length - 4) path ++ ['.', 'b', 'i', 'n']
      rw [← htail, List.take_append_drop]
  · intro h
    rw [main_cons, h]
    rfl
  · intro h
    rw [main_cons, h]
    simp only [Bool.false_eq_true, if_false]
    cases host.file path with
    | none => exact ⟨false, rfl⟩
    | some content =>
      by_cases hgt : content.length > 252
      · exact ⟨true, by simp only [hgt, if_true]; rfl⟩
      · cases hc : host.canCreate (outFilePath path) <;>
          exact ⟨true, by simp only [hgt, hc, if_false]; rfl⟩

end Crc32

/-! ## Theorems about `startup.c` -/

namespace Startup

/-- C8: the vector table has exactly 30 entries: the stack pointer symbol,
the reset handler, NMI, HardFault, seven null words, SVCall, two null words,
PendSV, SysTick, thirteen null words, and at index 29 = 16 + 13 the IO Bank 0
handler.  Every entry from index 2 on is null or a weak alias of the default
handler, which stands for the default handler unless another object file
defines the symbol. -/
theorem vector_layout :
    vector.length = 30 ∧
    vector[0]? = some (Entry.addr Symbol._sstack) ∧
    vector[1]? = some (Entry.addr Symbol.resetHandler) ∧
    vector[2]? = some (Entry.addr Symbol.nmiHandler) ∧
    vector[3]? = some (Entry.addr Symbol.hardFaultHandler) ∧
    (∀ i, 4 ≤ i → i ≤ 10 → vector[i]? = some Entry.null) ∧
    vector[11]? = some (Entry.addr Symbol.svCallHandler) ∧
    vector[12]? = some Entry.null ∧
    vector[13]? = some Entry.null ∧
    vector[14]? = some (Entry.addr Symbol.pendSvHandler) ∧
    vector[15]? = some (Entry.addr Symbol.sysTickHandler) ∧
    (∀ i, 16 ≤ i → i ≤ 28 → vector[i]? = some Entry.null) ∧
    vector[16 + 13]? = some (Entry.addr Symbol.ioIrqBank0) ∧
    (∀ i, 2 ≤ i → i < 30 →
      vector[i]? = some Entry.null ∨
      ∃ s, vector[i]? = some (Entry.addr s) ∧ weakAlias s = some Symbol.defaultHandler) ∧
    (∀ (strong : Symbol → Bool) (s : Symbol),
      weakAlias s = some Symbol.defaultHandler →
        resolve strong s = if strong s then s else Symbol.defaultHandler) := by
  refine ⟨rfl, rfl, rfl, rfl, rfl, ?_, rfl, rfl, rfl, rfl, rfl, ?_, rfl, ?_, ?_⟩
  · intro i h1 h2
    interval_cases i <;> rfl
  · intro i h1 h2
    interval_cases i <;> rfl
  · intro i h1 h2
    interval_cases i
    · exact Or.inr ⟨Symbol.nmiHandler, rfl, rfl⟩
    · exact Or.inr ⟨Symbol.hardFaultHandler, rfl, rfl⟩
    · exact Or.inl rfl
    · exact Or.inl rfl
    · exact Or.inl rfl
    · exact Or.inl rfl
    · exact Or.inl rfl
    · exact Or.inl rfl
    · exact Or.inl rfl
    · exact Or.inr ⟨Symbol.svCallHandler, rfl, rfl⟩
    · exact Or.inl rfl
    · exact Or.inl rfl
    · exact Or.inr ⟨Symbol.pendSvHandler, rfl, rfl⟩
    · exact Or.inr ⟨Symbol.sysTickHandler, rfl, rfl⟩
    · exact Or.inl rfl
    · exact Or.inl rfl
    · exact Or.inl rfl
    · exact Or.inl rfl
    · exact Or.inl rfl
    · exact Or.inl rfl
    · exact Or.inl rfl
    · exact Or.inl rfl
    · exact Or.inl rfl
    · exact Or.inl rfl
    · exact Or.inl rfl
    · exact Or.inl rfl
    · exact Or.inl rfl
    · exact Or.inr ⟨Symbol.ioIrqBank0, rfl, rfl⟩
  · intro strong s h
    unfold resolve
    rw [h]

/-- The copy loop, for every amount of fuel: it ends exactly when the fuel
exceeds the number of words left, and then every word of the destination holds
the word of the source at the same offset. -/
theorem copyLoop_eq (edata : Nat) (fuel src dst : Nat) (mem : Memory)
    (h : src + (edata - dst) ≤ dst ∨ dst + (edata - dst) ≤ src) :
    copyLoop edata fuel src dst mem =
      if edata - dst < fuel then
        some (src + (edata - dst), dst + (edata - dst),
          fun a => if dst ≤ a ∧ a < edata then mem (src + (a - dst)) else mem a)
      else none := by
  induction fuel generalizing src dst mem with
  | zero => simp [copyLoop]
  | succ fuel ih =>
    unfold copyLoop
    by_cases hd : dst < edata
    · rw [if_pos hd, ih (src + 1) (dst + 1) _ (by omega)]
      have e2 : src + 1 + (edata - (dst + 1)) = src + (edata - dst) := by omega
      have e3 : dst + 1 + (edata - (dst + 1)) = dst + (edata - dst) := by omega
      have e4 : (fun a => if dst + 1 ≤ a ∧ a < edata
            then (mem.write dst (mem src)) (src + 1 + (a - (dst + 1)))
            else (mem.write dst (mem src)) a)
          = fun a => if dst ≤ a ∧ a < edata then mem (src + (a - dst)) else mem a := by
        funext a
        unfold Memory.write
        by_cases ha : a = dst
        · subst ha
          have h1 : ¬ (a + 1 ≤ a ∧ a < edata) := by omega
          have h2 : a ≤ a ∧ a < edata := ⟨Nat.le_refl a, hd⟩
          simp only [if_neg h1, if_pos h2, if_true, Nat.sub_self, Nat.add_zero]
        · by_cases hin : dst ≤ a ∧ a < edata
          · have h1 : dst + 1 ≤ a ∧ a < edata := by omega
            have h2 : ¬ (src + (a - dst) = dst) := by omega
            have h3 : src + 1 + (a - (dst + 1)) = src + (a - dst) := by omega
            simp only [if_pos h1, if_pos hin, h3, if_neg h2]
          · have h1 : ¬ (dst + 1 ≤ a ∧ a < edata) := by omega
            simp only [if_neg h1, if_neg hin, if_neg ha]
      by_cases hc : edata - dst < fuel + 1
      · rw [if_pos hc, if_pos (by omega), e2, e3, e4]
      · rw [if_neg hc, if_neg (by omega)]
    · have hz : edata - dst = 0 := by omega
      have hf : (fun a => if dst ≤ a ∧ a < edata then mem (src + (a - dst)) else mem a)
          = mem := by
        funext a
        have h1 : ¬ (dst ≤ a ∧ a < edata) := by omega
        simp only [if_neg h1]
      rw [if_neg hd, hz, hf]
      simp

/-- The zeroing loop, for every amount of fuel: it ends exactly when the fuel
exceeds the number of words left, and then every word of the region is
zero. -/
theorem zeroLoop_eq (ebss : Nat) (fuel dst : Nat) (mem : Memory) :
    zeroLoop ebss fuel dst mem =
      if ebss - dst < fuel then
        some (dst + (ebss - dst), fun a => if dst ≤ a ∧ a < ebss then 0 else mem a)
      else none := by
  induction fuel generalizing dst mem with
  | zero => simp [zeroLoop]
  | succ fuel ih =>
    unfold zeroLoop
    by_cases hd : dst < ebss
    · rw [if_pos hd, ih (dst + 1) _]
      have e3 : dst + 1 + (ebss - (dst + 1)) = dst + (ebss - dst) := by omega
      have e4 : (fun a => if dst + 1 ≤ a ∧ a < ebss then 0 else (mem.write dst 0) a)
          = fun a => if dst ≤ a ∧ a < ebss then 0 else mem a := by
        funext a
        unfold Memory.write
        by_cases ha : a = dst
        · subst ha
          have h1 : ¬ (a + 1 ≤ a ∧ a < ebss) := by omega
          have h2 : a ≤ a ∧ a < ebss := ⟨Nat.le_refl a, hd⟩
          simp only [if_neg h1, if_pos h2, if_true]
        · by_cases hin : dst ≤ a ∧ a < ebss
          · have h1 : dst + 1 ≤ a ∧ a < ebss := by omega
            simp only [if_pos h1, if_pos hin]
          · have h1 : ¬ (dst + 1 ≤ a ∧ a < ebss) := by omega
            simp only [if_neg h1, if_neg hin, if_neg ha]
      by_cases hc : ebss - dst < fuel + 1
      · rw [if_pos hc, if_pos (by omega), e3, e4]
      · rw [if_neg hc, if_neg (by omega)]
    · have hz : ebss - dst = 0 := by omega
      have hf : (fun a => if dst ≤ a ∧ a < ebss then 0 else mem a) = mem := by
        funext a
        have h1 : ¬ (dst ≤ a ∧ a < ebss) := by omega
        simp only [if_neg h1]
      rw [if_neg hd, hz, hf]
      simp

/-- The reset handler for every amount of fuel: with too little fuel for
either loop `main` is not reached, and otherwise `main` is applied to the
memory in which the data region holds the flash image and the BSS region is
zero. -/
theorem resetHandler_eq {α : Type} (sy : Symbols) (main : Memory → α) (fuel : Nat)
    (mem : Memory) (h : Placement sy) :
    resetHandler sy main fuel mem =
      if sy._edata - sy._sdata < fuel ∧ sy._ebss - sy._sbss < fuel then
        some (main (fun a =>
          if sy._sbss ≤ a ∧ a < sy._ebss then 0
          else if sy._sdata ≤ a ∧ a < sy._edata then mem (sy._etext + (a - sy._sdata))
          else mem a))
      else none := by
  have hd := h.data_le
  have hs1 := h.src_data sy._sdata
  have hs2 := h.src_data sy._etext
  unfold resetHandler
  rw [copyLoop_eq sy._edata fuel sy._etext sy._sdata mem (by omega)]
  by_cases h1 : sy._edata - sy._sdata < fuel
  · rw [if_pos h1]
    simp only [zeroLoop_eq]
    by_cases h2 : sy._ebss - sy._sbss < fuel
    · rw [if_pos h2, if_pos ⟨h1, h2⟩]
    · rw [if_neg h2, if_neg (fun hc => h2 hc.2)]
  · rw [if_neg h1, if_neg (fun hc => h1 hc.1)]

/-- C9: under the placement of the linker symbols that the claim assumes, the
reset handler reaches its call of `main` whenever the fuel exceeds the lengths
of the two regions, and never before both loops are done: `main` is applied to
a memory in which word `i` of the data region holds the initial word `i` of
the flash image at `_etext`, every word of the BSS region is zero, and every
other word is unchanged. -/
theorem resetHandler_initialises_ram {α : Type} (sy : Symbols) (main : Memory → α)
    (mem : Memory) (h : Placement sy) :
    ∃ mem' : Memory,
      (∀ fuel, (sy._edata - sy._sdata) + (sy._ebss - sy._sbss) < fuel →
        resetHandler sy main fuel mem = some (main mem')) ∧
      (∀ fuel, resetHandler sy main fuel mem = none ∨
        resetHandler sy main fuel mem = some (main mem')) ∧
      (∀ i, i < sy._edata - sy._sdata → mem' (sy._sdata + i) = mem (sy._etext + i)) ∧
      (∀ a, sy._sbss ≤ a → a < sy._ebss → mem' a = 0) ∧
      (∀ a, ¬ (sy._sdata ≤ a ∧ a < sy._edata) → ¬ (sy._sbss ≤ a ∧ a < sy._ebss) →
        mem' a = mem a) := by
  refine ⟨fun a =>
      if sy._sbss ≤ a ∧ a < sy._ebss then 0
      else if sy._sdata ≤ a ∧ a < sy._edata then mem (sy._etext + (a - sy._sdata))
      else mem a, ?_, ?_, ?_, ?_, ?_⟩
  · intro fuel hf
    rw [resetHandler_eq sy main fuel mem h, if_pos (by omega)]
  · intro fuel
    rw [resetHandler_eq sy main fuel mem h]
    by_cases hc : sy._edata - sy._sdata < fuel ∧ sy._ebss - sy._sbss < fuel
    · rw [if_pos hc]
      exact Or.inr rfl
    · rw [if_neg hc]
      exact Or.inl rfl
  · intro i hi
    have hb := h.data_bss (sy._sdata + i)
    have h1 : ¬ (sy._sbss ≤ sy._sdata + i ∧ sy._sdata + i < sy._ebss) := by omega
    have h2 : sy._sdata ≤ sy._sdata + i ∧ sy._sdata + i < sy._edata := by omega
    simp only [if_neg h1, if_pos h2, Nat.add_sub_cancel_left]
  · intro a h1 h2
    simp only [if_pos (And.intro h1 h2)]
  · intro a h1 h2
    simp only [if_neg h1, if_neg h2]

/-- C9, at a three word data region at words 10 to 12 copied from word 100
and a two word BSS region at words 20 and 21. -/
theorem resetHandler_initialises_ram_witness :
    ∃ mem' : Memory,
      (∀ fuel, ((Symbols.mk 100 10 13 20 22)._edata - (Symbols.mk 100 10 13 20 22)._sdata)
          + ((Symbols.mk 100 10 13 20 22)._ebss - (Symbols.mk 100 10 13 20 22)._sbss) < fuel →
        resetHandler (Symbols.mk 100 10 13 20 22) (fun m => m 11) fuel (fun a => a + 1000)
          = some ((fun m => m 11) mem')) ∧
      (∀ fuel,
        resetHandler (Symbols.mk 100 10 13 20 22) (fun m => m 11) fuel (fun a => a + 1000)
          = none ∨
        resetHandler (Symbols.mk 100 10 13 20 22) (fun m => m 11) fuel (fun a => a + 1000)
          = some ((fun m => m 11) mem')) ∧
      (∀ i, i < (Symbols.mk 100 10 13 20 22)._edata - (Symbols.mk 100 10 13 20 22)._sdata →
        mem' ((Symbols.mk 100 10 13 20 22)._sdata + i)
          = (fun a => a + 1000) ((Symbols.mk 100 10 13 20 22)._etext + i)) ∧
      (∀ a, (Symbols.mk 100 10 13 20 22)._sbss ≤ a → a < (Symbols.mk 100 10 13 20 22)._ebss →
        mem' a = 0) ∧
      (∀ a, ¬ ((Symbols.mk 100 10 13 20 22)._sdata ≤ a ∧ a < (Symbols.mk 100 10 13 20 22)._edata) →
        ¬ ((Symbols.mk 100 10 13 20 22)._sbss ≤ a ∧ a < (Symbols.mk 100 10 13 20 22)._ebss) →
        mem' a = (fun a => a + 1000) a) :=
  resetHandler_initialises_ram (Symbols.mk 100 10 13 20 22) (fun m => m 11)
    (fun a => a + 1000)
    { data_le := by decide
      bss_le := by decide
      src_data := fun a => by
        show ¬ ((100 ≤ a ∧ a < 100 + (13 - 10)) ∧ (10 ≤ a ∧ a < 13))
        omega
      src_bss := fun a => by
        show ¬ ((100 ≤ a ∧ a < 100 + (13 - 10)) ∧ (20 ≤ a ∧ a < 22))
        omega
      data_bss := fun a => by
        show ¬ ((10 ≤ a ∧ a < 13) ∧ (20 ≤ a ∧ a < 22))
        omega }

/-- The reset handler run on the same input: five units of fuel suffice, and
`main` finds the word 1101 copied from flash word 101 at word 11. -/
theorem resetHandler_example :
    resetHandler (Symbols.mk 100 10 13 20 22) (fun m => m 11) 5 (fun a => a + 1000)
      = some 1101 ∧
    resetHandler (Symbols.mk 100 10 13 20 22) (fun m => m 11) 3 (fun a => a + 1000)
      = none := by
  decide

end Startup

/-! ## Theorems about `transmitter.c` -/

namespace Transmitter

theorem writes_append (xs ys : List Event) : writes (xs ++ ys) = writes xs ++ writes ys := by
  induction xs with
  | nil => rfl
  | cons e rest ih =>
    cases e <;> simp [writes, ih]

theorem writes_replicate_nop (n : Nat) : writes (List.replicate n Event.nop) = [] := by
  induction n with
  | zero => rfl
  | succ n ih => simpa [List.replicate_succ, writes] using ih

theorem writes_replicate_wfi (n : Nat) : writes (List.replicate n Event.wfi) = [] := by
  induction n with
  | zero => rfl
  | succ n ih => simpa [List.replicate_succ, writes] using ih

theorem store_trace (addr val : Nat) (s : Cpu) :
    (store addr val s).trace = s.trace ++ [Event.write addr val] := by
  simp [store, Cpu.emit, Cpu.trace]

theorem store_loads (addr val : Nat) (s : Cpu) : (store addr val s).loads = s.loads := rfl

theorem load_fst (bus : Bus) (addr : Nat) (s : Cpu) :
    (load bus addr s).1 = bus addr s.loads % 4294967296 := rfl

theorem load_trace (bus : Bus) (addr : Nat) (s : Cpu) :
    (load bus addr s).2.trace = s.trace ++ [Event.read addr (bus addr s.loads % 4294967296)] := by
  simp [load, Cpu.trace]

theorem load_loads (bus : Bus) (addr : Nat) (s : Cpu) :
    (load bus addr s).2.loads = s.loads + 1 := rfl

theorem delayLoop_eq (count fuel i : Nat) (s : Cpu) (hi : i + fuel = count)
    (hc : count < 4294967296) :
    delayLoop count fuel i s
      = { loads := s.loads, log := List.replicate fuel Event.nop ++ s.log } := by
  induction fuel generalizing i s with
  | zero => rfl
  | succ fuel ih =>
    have h1 : i < count := by omega
    have h2 : (i + 1) % 4294967296 = i + 1 := Nat.mod_eq_of_lt (by omega)
    unfold delayLoop
    rw [if_pos h1, h2, ih (i + 1) _ (by omega)]
    simp only [Cpu.emit, List.replicate_succ', List.append_assoc, List.singleton_append]

/-- The busy wait `delay(count)` always ends; it executes `count` times `nop`
and touches no register. -/
theorem delay_trace (count : Nat) (s : Cpu) (hc : count < 4294967296) :
    (delay count s).trace = s.trace ++ List.replicate count Event.nop := by
  unfold delay
  rw [delayLoop_eq count count 0 s (Nat.zero_add count) hc]
  simp [Cpu.trace]

theorem delay_loads (count : Nat) (s : Cpu) (hc : count < 4294967296) :
    (delay count s).loads = s.loads := by
  unfold delay
  rw [delayLoop_eq count count 0 s (Nat.zero_add count) hc]

theorem gpio_put_trace (pin : Nat) (value : Bool) (s : Cpu) :
    (gpio_put pin value s).trace = s.trace ++
      [Event.write (if value then sio_gpio_out_set else sio_gpio_out_clr)
        ((1 <<< pin) % 4294967296)] := by
  cases value <;> simp [gpio_put, store_trace]

theorem gpio_put_loads (pin : Nat) (value : Bool) (s : Cpu) :
    (gpio_put pin value s).loads = s.loads := by
  cases value <;> rfl

theorem gpio_set_dir_trace (pin : Nat) (out : Bool) (s : Cpu) :
    (gpio_set_dir pin out s).trace = s.trace ++
      [Event.write (if out then sio_gpio_oe_set else sio_gpio_oe_clr)
        ((1 <<< pin) % 4294967296)] := by
  cases out <;> simp [gpio_set_dir, store_trace]

theorem gpio_set_dir_loads (pin : Nat) (out : Bool) (s : Cpu) :
    (gpio_set_dir pin out s).loads = s.loads := by
  cases out <;> rfl

theorem gpio_set_function_trace (pin function : Nat) (s : Cpu) :
    (gpio_set_function pin function s).trace
      = s.trace ++ [Event.write (io_gpio_ctrl pin) function] :=
  store_trace _ _ _

theorem gpio_set_pulls_trace (pin : Nat) (up down : Bool) (s : Cpu) :
    (gpio_set_pulls pin up down s).trace = s.trace ++
      [Event.write (pads_gpio pin)
        ((if up then 8 else 0) ||| (if down then 4 else 0) ||| 0x40)] := by
  unfold gpio_set_pulls
  rw [store_trace]
  rfl

theorem sleepLoop_trace (rounds : Nat) (s : Cpu) :
    (sleepLoop rounds s).trace = s.trace ++ List.replicate rounds Event.wfi := by
  induction rounds generalizing s with
  | zero => simp [sleepLoop]
  | succ n ih =>
    unfold sleepLoop
    rw [ih]
    simp [Cpu.emit, Cpu.trace, List.replicate_succ]

/-- The trace of the interrupt handler: one load of the status word, and
either nothing more or the pulse followed by the acknowledge. -/
theorem ioIrqBank0_trace_eq (bus : Bus) (s : Cpu) :
    (ioIrqBank0 bus s).trace = s.trace ++
      (Event.read (io_proc0_ints 2) (bus (io_proc0_ints 2) s.loads % 4294967296) ::
        if (bus (io_proc0_ints 2) s.loads % 4294967296) &&& 0x8 = 0 then []
        else
          [Event.write sio_gpio_out_set (1 <<< 25), Event.write sio_gpio_out_set (1 <<< 21)]
            ++ List.replicate 100000 Event.nop
            ++ [Event.write sio_gpio_out_clr (1 <<< 25),
                Event.write sio_gpio_out_clr (1 <<< 21),
                Event.write (io_intr 2) 0xF]) := by
  unfold ioIrqBank0
  show (if (bus (io_proc0_ints 2) s.loads % 4294967296) &&& 8 ≠ 0 then _ else _ : Cpu).trace = _
  by_cases h : (bus (io_proc0_ints 2) s.loads % 4294967296) &&& 8 = 0
  · rw [if_neg (not_not.mpr h), if_pos h]
    simp only [Cpu.trace, List.reverse_cons]
    rfl
  · rw [if_pos h, if_neg h, store_trace, gpio_put_trace, gpio_put_trace,
      delay_trace _ _ (by decide), gpio_put_trace, gpio_put_trace]
    simp only [Cpu.trace, List.reverse_cons, List.append_assoc, List.singleton_append,
      List.cons_append, List.nil_append, if_true, Bool.false_eq_true, if_false]
    rfl

/-- The wait for the reset bit ends as soon as one of the first `fuel` loads
returns a word whose bit 5 is clear; it stores nothing. -/
theorem pollReset_some (bus : Bus) (fuel : Nat) (s : Cpu) (k : Nat) (hk : k < fuel)
    (hz : (bus resets_reset (s.loads + k) % 4294967296) &&& (1 <<< 5) = 0) :
    ∃ s', pollReset bus fuel s = some s' ∧ writes s'.trace = writes s.trace := by
  induction fuel generalizing s k with
  | zero => omega
  | succ fuel ih =>
    unfold pollReset
    show ∃ s', (if (bus resets_reset s.loads % 4294967296) &&& (1 <<< 5) ≠ 0
        then pollReset bus fuel (load bus resets_reset s).2
        else some (load bus resets_reset s).2) = some s' ∧ _
    have hw : writes (load bus resets_reset s).2.trace = writes s.trace := by
      rw [load_trace, writes_append]
      simp [writes]
    by_cases h : (bus resets_reset s.loads % 4294967296) &&& (1 <<< 5) = 0
    · rw [if_neg (not_not.mpr h)]
      exact ⟨_, rfl, hw⟩
    · rw [if_pos h]
      cases k with
      | zero => exact absurd hz h
      | succ k =>
        have hz' : (bus resets_reset ((load bus resets_reset s).2.loads + k) % 4294967296)
            &&& (1 <<< 5) = 0 := by
          rw [load_loads]
          rw [show s.loads + 1 + k = s.loads + (k + 1) from by omega]
          exact hz
        obtain ⟨s', h1, h2⟩ := ih (load bus resets_reset s).2 k (by omega) hz'
        exact ⟨s', h1, h2.trans hw⟩

/-- The stores of the configuration phase of `main`. -/
theorem configure_some (bus : Bus) (fuel : Nat) (s : Cpu) (k : Nat) (hk : k < fuel)
    (hz : (bus resets_reset (s.loads + 1 + k) % 4294967296) &&& (1 <<< 5) = 0) :
    ∃ s', configure bus fuel s = some s' ∧
      writes s'.trace = writes s.trace ++
        [(resets_reset, (bus resets_reset s.loads % 4294967296) &&& 0xFFFFFFDF),
         (io_gpio_ctrl 16, 5), (sio_gpio_oe_clr, 1 <<< 16), (pads_gpio 16, 0x48),
         (io_gpio_ctrl 25, 5), (sio_gpio_oe_set, 1 <<< 25),
         (io_gpio_ctrl 21, 5), (sio_gpio_oe_set, 1 <<< 21)] := by
  have hz' : (bus resets_reset
      ((store resets_reset ((load bus resets_reset s).1 &&& (4294967295 ^^^ (1 <<< 5)))
        (load bus resets_reset s).2).loads + k) % 4294967296) &&& (1 <<< 5) = 0 := by
    rw [store_loads, load_loads]
    exact hz
  obtain ⟨s1, h1, h2⟩ := pollReset_some bus fuel _ k hk hz'
  unfold configure
  show ∃ s', (match pollReset bus fuel
      (store resets_reset ((load bus resets_reset s).1 &&& (4294967295 ^^^ (1 <<< 5)))
        (load bus resets_reset s).2) with
    | none => none
    | some s => _) = some s' ∧ _
  rw [h1]
  refine ⟨_, rfl, ?_⟩
  rw [gpio_set_dir_trace, gpio_set_function_trace, gpio_set_dir_trace, gpio_set_function_trace,
    gpio_set_pulls_trace, gpio_set_dir_trace, gpio_set_function_trace]
  simp only [writes_append, h2, store_trace, load_trace, load_fst]
  simp only [writes, List.append_assoc, List.nil_append, List.singleton_append,
    List.cons_append, if_true, Bool.false_eq_true, if_false]
  rfl

theorem setupInterrupt_trace (bus : Bus) (s : Cpu) :
    (setupInterrupt bus s).trace = s.trace ++
      [Event.write (io_intr 2) 0xF,
       Event.read (io_proc0_inte 2) (bus (io_proc0_inte 2) s.loads % 4294967296),
       Event.write (io_proc0_inte 2) ((bus (io_proc0_inte 2) s.loads % 4294967296) ||| 0x8),
       Event.write NVIC_ISER (1 <<< 13)] := by
  unfold setupInterrupt
  show (store NVIC_ISER ((1 <<< IO_BANK0_IRQ) % 4294967296)
    (store (io_proc0_inte (BUTTON_PIN / 8))
      ((load bus (io_proc0_inte (BUTTON_PIN / 8))
          (store (io_intr (BUTTON_PIN / 8)) (0xF <<< (4 * (BUTTON_PIN % 8))) s)).1
        ||| (GPIO_INT_EDGE_HIGH <<< (4 * (BUTTON_PIN % 8))))
      (load bus (io_proc0_inte (BUTTON_PIN / 8))
        (store (io_intr (BUTTON_PIN / 8)) (0xF <<< (4 * (BUTTON_PIN % 8))) s)).2)).trace = _
  rw [store_trace, store_trace, load_trace, load_fst, store_loads, store_trace]
  simp only [List.append_assoc, List.singleton_append, List.cons_append, List.nil_append]
  rfl

theorem testLoop_succ (fuel i : Nat) (s : Cpu) :
    testLoop (fuel + 1) i s =
      if i < 3 then
        testLoop fuel (i + 1)
          (delay 100000 (gpio_put SPEAKER_PIN false (gpio_put LED_PIN false
            (delay 100000 (gpio_put SPEAKER_PIN true (gpio_put LED_PIN true s))))))
      else s := rfl

theorem pulse_trace (s : Cpu) :
    (delay 100000 (gpio_put SPEAKER_PIN false (gpio_put LED_PIN false
      (delay 100000 (gpio_put SPEAKER_PIN true (gpio_put LED_PIN true s)))))).trace
      = s.trace ++ pulse := by
  rw [delay_trace _ _ (by decide), gpio_put_trace, gpio_put_trace,
    delay_trace _ _ (by decide), gpio_put_trace, gpio_put_trace]
  simp only [pulse, List.append_assoc, List.singleton_append, List.cons_append,
    List.nil_append, if_true, Bool.false_eq_true, if_false]
  rfl

/-- The startup test pattern is three pulses; its loop ends after the third
round. -/
theorem selfTest_trace (s : Cpu) :
    (selfTest s).trace = s.trace ++ pulse ++ pulse ++ pulse := by
  unfold selfTest
  rw [show (3 : Nat) = 2 + 1 from rfl, testLoop_succ, if_pos (by decide),
    show (2 : Nat) = 1 + 1 from rfl, testLoop_succ, if_pos (by decide),
    show (1 : Nat) = 0 + 1 from rfl, testLoop_succ, if_pos (by decide)]
  show (delay 100000 _).trace = _
  rw [pulse_trace, pulse_trace, pulse_trace]

theorem writes_pulse :
    writes pulse =
      [(sio_gpio_out_set, 1 <<< 25), (sio_gpio_out_set, 1 <<< 21),
       (sio_gpio_out_clr, 1 <<< 25), (sio_gpio_out_clr, 1 <<< 21)] := by
  unfold pulse
  rw [writes_append, writes_append, writes_append, writes_replicate_nop]
  rfl

/-- The stores of `main` in program order, from the deassertion of the reset
up to the idle loop: the configuration, the interrupt setup ending with the
NVIC enable, and then the twelve stores of the three test pulses. -/
theorem main_writes (bus : Bus) (fuel rounds : Nat) (s : Cpu) (k : Nat) (hk : k < fuel)
    (hz : (bus resets_reset (s.loads + 1 + k) % 4294967296) &&& (1 <<< 5) = 0) :
    ∃ s' e, main bus fuel rounds s = some s' ∧
      writes s'.trace = writes s.trace ++
        [(resets_reset, (bus resets_reset s.loads % 4294967296) &&& 0xFFFFFFDF),
         (io_gpio_ctrl 16, 5), (sio_gpio_oe_clr, 1 <<< 16), (pads_gpio 16, 0x48),
         (io_gpio_ctrl 25, 5), (sio_gpio_oe_set, 1 <<< 25),
         (io_gpio_ctrl 21, 5), (sio_gpio_oe_set, 1 <<< 21),
         (io_intr 2, 0xF), (io_proc0_inte 2, e ||| 0x8)]
        ++ nvicEnable ::
        [(sio_gpio_out_set, 1 <<< 25), (sio_gpio_out_set, 1 <<< 21),
         (sio_gpio_out_clr, 1 <<< 25), (sio_gpio_out_clr, 1 <<< 21),
         (sio_gpio_out_set, 1 <<< 25), (sio_gpio_out_set, 1 <<< 21),
         (sio_gpio_out_clr, 1 <<< 25), (sio_gpio_out_clr, 1 <<< 21),
         (sio_gpio_out_set, 1 <<< 25), (sio_gpio_out_set, 1 <<< 21),
         (sio_gpio_out_clr, 1 <<< 25), (sio_gpio_out_clr, 1 <<< 21)] := by
  obtain ⟨s1, h1, h2⟩ := configure_some bus fuel s k hk hz
  refine ⟨sleepLoop rounds (selfTest (setupInterrupt bus s1)),
    bus (io_proc0_inte 2) s1.loads % 4294967296, ?_, ?_⟩
  · unfold main
    rw [h1]
  · rw [sleepLoop_trace, selfTest_trace, setupInterrupt_trace]
    simp only [writes_append, writes_replicate_wfi, writes_pulse, h2, List.append_nil]
    simp only [writes, List.append_assoc, List.cons_append, List.nil_append, nvicEnable]
    rfl

/-- Splitting a sequence of stores at the NVIC enable: when no store before it
goes to the GPIO output aliases and the enable occurs only once, every store
to the GPIO output aliases comes after the enable. -/
theorem outputWritesAfterEnable_of_split (pre post : List (Nat × Nat))
    (hpre : ∀ w ∈ pre, isOutputWrite w = false ∧ w ≠ nvicEnable)
    (hpost : ∀ w ∈ post, w ≠ nvicEnable) :
    OutputWritesAfterEnable (pre ++ nvicEnable :: post) := by
  intro i j w hi hj hw
  have hi' : i = pre.length := by
    rcases Nat.lt_trichotomy i pre.length with h | h | h
    · rw [List.getElem?_append_left h] at hi
      exact absurd rfl (hpre _ (List.getElem?_mem hi)).2
    · exact h
    · rw [List.getElem?_append_right (by omega)] at hi
      obtain ⟨m, hm⟩ : ∃ m, i - pre.length = m + 1 := ⟨i - pre.length - 1, by omega⟩
      rw [hm, List.getElem?_cons_succ] at hi
      exact absurd rfl (hpost _ (List.getElem?_mem hi))
  rcases Nat.lt_trichotomy j pre.length with h | h | h
  · rw [List.getElem?_append_left h] at hj
    have := (hpre _ (List.getElem?_mem hj)).1
    rw [hw] at this
    exact absurd this (by decide)
  · rw [List.getElem?_append_right (by omega), h, Nat.sub_self, List.getElem?_cons_zero] at hj
    have hw' : w = nvicEnable := (Option.some.inj hj).symm
    rw [hw'] at hw
    exact absurd hw (by decide)
  · omega

theorem not_output_of_addr (a x : Nat) (h1 : a ≠ sio_gpio_out_set) (h2 : a ≠ sio_gpio_out_clr)
    (h3 : a ≠ NVIC_ISER) : isOutputWrite (a, x) = false ∧ (a, x) ≠ nvicEnable := by
  constructor
  · simp [isOutputWrite, h1, h2]
  · intro h
    exact h3 (congrArg Prod.fst h)

/-- C6: for every value of the interrupt status word `proc0_ints[2]`, the
handler performs no store when the rising-edge bit 0x8 of the button's nibble
is clear, and otherwise exactly the stores `gpio_out_set = 1<<25`,
`gpio_out_set = 1<<21`, then the delay of 100000 `nop`, then
`gpio_out_clr = 1<<25`, `gpio_out_clr = 1<<21` and last `intr[2] = 0xF`. -/
theorem ioIrqBank0_writes (bus : Bus) (s : Cpu) :
    (ioIrqBank0 bus s).trace = s.trace ++
      (Event.read (io_proc0_ints 2) (bus (io_proc0_ints 2) s.loads % 4294967296) ::
        if (bus (io_proc0_ints 2) s.loads % 4294967296) &&& 0x8 = 0 then []
        else
          [Event.write sio_gpio_out_set (1 <<< 25), Event.write sio_gpio_out_set (1 <<< 21)]
            ++ List.replicate 100000 Event.nop
            ++ [Event.write sio_gpio_out_clr (1 <<< 25),
                Event.write sio_gpio_out_clr (1 <<< 21),
                Event.write (io_intr 2) 0xF]) ∧
    writes (ioIrqBank0 bus s).trace = writes s.trace ++
      (if (bus (io_proc0_ints 2) s.loads % 4294967296) &&& 0x8 = 0 then []
       else
        [(sio_gpio_out_set, 1 <<< 25), (sio_gpio_out_set, 1 <<< 21),
         (sio_gpio_out_clr, 1 <<< 25), (sio_gpio_out_clr, 1 <<< 21),
         (io_intr 2, 0xF)]) := by
  refine ⟨ioIrqBank0_trace_eq bus s, ?_⟩
  rw [ioIrqBank0_trace_eq, writes_append]
  by_cases h : (bus (io_proc0_ints 2) s.loads % 4294967296) &&& 0x8 = 0
  · rw [if_pos h, if_pos h]
    rfl
  · rw [if_neg h, if_neg h]
    show writes s.trace ++ writes (_ ++ _ ++ _) = _
    rw [writes_append, writes_append, writes_replicate_nop]
    rfl

/-- C7, as the spec states it, fails: on hardware whose loads all return
zero, `main` reaches its idle loop and its stores to the GPIO output aliases
do not all come before the NVIC enable (the enable is the eleventh store, the
first test pulse starts with the twelfth). -/
theorem main_self_test_not_before_enable :
    ∃ s', main quietBus 1 0 Cpu.reset = some s' ∧
      ¬ OutputWritesBeforeEnable (writes s'.trace) := by
  obtain ⟨s', e, h1, h2⟩ := main_writes quietBus 1 0 Cpu.reset 0 (by decide) (by decide)
  refine ⟨s', h1, ?_⟩
  intro hb
  have := hb 10 11 (sio_gpio_out_set, 1 <<< 25) (by rw [h2]; rfl) (by rw [h2]; rfl) (by decide)
  omega

/-- C7, amended: whenever the reset bit reads back as zero, `main` reaches
its idle loop, and in the sequence of its stores every store to the GPIO
output aliases comes after the store that enables the IO Bank 0 line in the
NVIC: the enable is followed by exactly the twelve stores of the three test
pulses, and no store before it goes to the GPIO output aliases. -/
theorem main_self_test_after_enable (bus : Bus) (fuel rounds : Nat) (k : Nat) (hk : k < fuel)
    (hz : (bus resets_reset (k + 1) % 4294967296) &&& (1 <<< 5) = 0) :
    ∃ s' pre, main bus fuel rounds Cpu.reset = some s' ∧
      OutputWritesAfterEnable (writes s'.trace) ∧
      (∀ w ∈ pre, isOutputWrite w = false) ∧
      writes s'.trace = pre ++ nvicEnable ::
        [(sio_gpio_out_set, 1 <<< 25), (sio_gpio_out_set, 1 <<< 21),
         (sio_gpio_out_clr, 1 <<< 25), (sio_gpio_out_clr, 1 <<< 21),
         (sio_gpio_out_set, 1 <<< 25), (sio_gpio_out_set, 1 <<< 21),
         (sio_gpio_out_clr, 1 <<< 25), (sio_gpio_out_clr, 1 <<< 21),
         (sio_gpio_out_set, 1 <<< 25), (sio_gpio_out_set, 1 <<< 21),
         (sio_gpio_out_clr, 1 <<< 25), (sio_gpio_out_clr, 1 <<< 21)] := by
  have hz' : (bus resets_reset (Cpu.reset.loads + 1 + k) % 4294967296) &&& (1 <<< 5) = 0 := by
    rw [show Cpu.reset.loads + 1 + k = k + 1 from by show 0 + 1 + k = k + 1; omega]
    exact hz
  obtain ⟨s', e, h1, h2⟩ := main_writes bus fuel rounds Cpu.reset k hk hz'
  rw [show writes Cpu.reset.trace = [] from rfl, List.nil_append] at h2
  have hpre : ∀ w ∈
      [(resets_reset, (bus resets_reset Cpu.reset.loads % 4294967296) &&& 0xFFFFFFDF),
       (io_gpio_ctrl 16, 5), (sio_gpio_oe_clr, 1 <<< 16), (pads_gpio 16, 0x48),
       (io_gpio_ctrl 25, 5), (sio_gpio_oe_set, 1 <<< 25),
       (io_gpio_ctrl 21, 5), (sio_gpio_oe_set, 1 <<< 21),
       (io_intr 2, 0xF), (io_proc0_inte 2, e ||| 0x8)],
      isOutputWrite w = false ∧ w ≠ nvicEnable := by
    intro w hw
    simp only [List.mem_cons, List.mem_singleton, List.not_mem_nil, or_false] at hw
    rcases hw with rfl | rfl | rfl | rfl | rfl | rfl | rfl | rfl | rfl | rfl <;>
      exact not_output_of_addr _ _ (by decide) (by decide) (by decide)
  refine ⟨s', _, h1, ?_, fun w hw => (hpre w hw).1, h2⟩
  rw [h2]
  exact outputWritesAfterEnable_of_split _ _ hpre (by decide)

/-- C7, amended, on hardware whose loads all return zero. -/
theorem main_self_test_after_enable_witness :
    ∃ s' pre, main quietBus 1 0 Cpu.reset = some s' ∧
      OutputWritesAfterEnable (writes s'.trace) ∧
      (∀ w ∈ pre, isOutputWrite w = false) ∧
      writes s'.trace = pre ++ nvicEnable ::
        [(sio_gpio_out_set, 1 <<< 25), (sio_gpio_out_set, 1 <<< 21),
         (sio_gpio_out_clr, 1 <<< 25), (sio_gpio_out_clr, 1 <<< 21),
         (sio_gpio_out_set, 1 <<< 25), (sio_gpio_out_set, 1 <<< 21),
         (sio_gpio_out_clr, 1 <<< 25), (sio_gpio_out_clr, 1 <<< 21),
         (sio_gpio_out_set, 1 <<< 25), (sio_gpio_out_set, 1 <<< 21),
         (sio_gpio_out_clr, 1 <<< 25), (sio_gpio_out_clr, 1 <<< 21)] :=
  main_self_test_after_enable quietBus 1 0 0 (by decide) (by decide)

/-- C10: whenever the reset bit reads back as zero, the configuration phase
of `main` ends, and after deasserting the reset it stores function code 5 to
the control registers of pins 16, 25 and 21, the word 0x48 (bits 3 and 6) to
the pad register of pin 16, the mask `1<<16` to the output-enable clear alias
and the masks `1<<25` and `1<<21` to the output-enable set alias.  For every
pin and flags, `gpio_set_pulls` stores `(up ? 8 : 0) | (down ? 4 : 0) | 0x40`
to the pad register of the pin. -/
theorem configure_writes (bus : Bus) (fuel : Nat) (s : Cpu) (k : Nat) (hk : k < fuel)
    (hz : (bus resets_reset (s.loads + 1 + k) % 4294967296) &&& (1 <<< 5) = 0) :
    (∃ s', configure bus fuel s = some s' ∧
      writes s'.trace = writes s.trace ++
        [(resets_reset, (bus resets_reset s.loads % 4294967296) &&& 0xFFFFFFDF),
         (io_gpio_ctrl 16, 5), (sio_gpio_oe_clr, 1 <<< 16), (pads_gpio 16, 0x48),
         (io_gpio_ctrl 25, 5), (sio_gpio_oe_set, 1 <<< 25),
         (io_gpio_ctrl 21, 5), (sio_gpio_oe_set, 1 <<< 21)]) ∧
    (0x48 : Nat) = 2 ^ 3 + 2 ^ 6 ∧
    (∀ (pin : Nat) (up down : Bool) (t : Cpu),
      writes (gpio_set_pulls pin up down t).trace = writes t.trace ++
        [(pads_gpio pin, (if up then 8 else 0) ||| (if down then 4 else 0) ||| 0x40)]) := by
  refine ⟨configure_some bus fuel s k hk hz, by decide, ?_⟩
  intro pin up down t
  rw [gpio_set_pulls_trace, writes_append]
  rfl

/-- C10, on hardware whose loads all return zero. -/
theorem configure_writes_witness :
    (∃ s', configure quietBus 1 Cpu.reset = some s' ∧
      writes s'.trace = writes Cpu.reset.trace ++
        [(resets_reset, (quietBus resets_reset Cpu.reset.loads % 4294967296) &&& 0xFFFFFFDF),
         (io_gpio_ctrl 16, 5), (sio_gpio_oe_clr, 1 <<< 16), (pads_gpio 16, 0x48),
         (io_gpio_ctrl 25, 5), (sio_gpio_oe_set, 1 <<< 25),
         (io_gpio_ctrl 21, 5), (sio_gpio_oe_set, 1 <<< 21)]) ∧
    (0x48 : Nat) = 2 ^ 3 + 2 ^ 6 ∧
    (∀ (pin : Nat) (up down : Bool) (t : Cpu),
      writes (gpio_set_pulls pin up down t).trace = writes t.trace ++
        [(pads_gpio pin, (if up then 8 else 0) ||| (if down then 4 else 0) ||| 0x40)]) :=
  configure_writes quietBus 1 Cpu.reset 0 (by decide) (by decide)

/-- The configuration phase run on hardware whose loads all return zero: two
loads of the reset register and eight stores. -/
theorem configure_example :
    Option.map Cpu.trace (configure quietBus 1 Cpu.reset) = some
      [Event.read 0x4000c000 0, Event.write 0x4000c000 0, Event.read 0x4000c000 0,
       Event.write 0x40014084 5, Event.write 0xd0000028 0x10000, Event.write 0x4001c044 0x48,
       Event.write 0x400140cc 5, Event.write 0xd0000024 0x2000000,
       Event.write 0x400140ac 5, Event.write 0xd0000024 0x200000] := by
  decide

end Transmitter
